import Mathlib

/-!
Verification development for the catalog-synchronization pipeline of the
StreamVault repository.

The repository contains two parallel sync pipelines:

* pipeline A (the backend one): `backend/src/jobs/syncCatalog.js`
  (`CatalogSyncer`) driving `backend/src/services/tmdbService.js`
  (`TMDBService`, the rate-limited/cached client), persisting through the
  `Media` mongoose model (`backend/src/models/Media.js`);
* pipeline B (the CLI one): `scripts/syncCatalog.js` driving
  `services/contentAggregator.js` (`ContentAggregator`) and
  `services/tmdbService.js`.

Machine integers of JavaScript are modelled as `Nat`/`Int`; TMDB vote
averages, popularity and rating thresholds (JS floats such as 6.0, 5.0, 7.5)
are modelled as `ℚ` — every comparison performed by the source on these
quantities is exact at the modelled magnitudes.  Timestamps (`Date.now()`,
`new Date()`) are modelled as `Int` milliseconds.  Fallible remote calls are
modelled with `Option`.  The MongoDB store is modelled as a list of
documents; the unique index `{ tmdbId: 1, type: 1 }` created by
`createIndexes` (`config/database.js`, also `setup.sh`) is modelled by
making every write that would introduce a second document with an existing
`(tmdbId, type)` pair fail with a duplicate-key error, which the callers
catch.  The `slug` unique index is not modelled: slug collisions are the
spec's own open question (§9) and are orthogonal to the claims below.
-/

/-- Content kind of a catalog item: the `type` field of the `Media` schema as
produced by the sync pipeline (`movie` / `series` / `anime`).  The schema also
admits `documentary` and `cartoon`, which the pipeline never produces; they are
omitted. -/
inductive MediaType where
  | movie
  | series
  | anime
deriving DecidableEq, Repr

/-- A listing entry as produced by `formatMoviesResponse` / `formatTVResponse`
/ `formatSearchResponse` in `backend/src/services/tmdbService.js`, restricted
to the three fields the orchestrator reads from a listing: `tmdbId`, `type`
and `rating.tmdb.average`.  (Movie listings always carry `type: 'movie'`; TV
listings carry `series` or `anime` depending on `isAnime`.) -/
structure Summary where
  tmdbId : Nat
  type : MediaType
  tmdbAverage : ℚ
deriving DecidableEq, Repr

/-- A season summary of a TV detail (`formatTVDetails`): season number and
episode count; name/overview/poster are elided. -/
structure Season where
  seasonNumber : Nat
  episodeCount : Nat
deriving DecidableEq, Repr

/-- The `/movie/:id` core response (fields that `formatMovieDetails` reads).
`releaseYear` models `release_date ? new Date(release_date).getFullYear() :
null`. -/
structure MovieCore where
  id : Nat
  title : String
  originalTitle : String
  releaseYear : Option Int
  overview : String
  voteAverage : ℚ
  voteCount : Nat
  popularity : ℚ
  genres : List String
deriving DecidableEq, Repr

/-- The `/tv/:id` core response (fields that `formatTVDetails` reads),
including the `content_ratings` appended by `append_to_response` and the
fields that feed `isAnime`. -/
structure TVCore where
  id : Nat
  name : String
  originalName : String
  firstAirYear : Option Int
  overview : String
  voteAverage : ℚ
  voteCount : Nat
  popularity : ℚ
  genres : List (Nat × String)
  originCountry : List String
  originalLanguage : String
  contentRatings : List (String × String)
  numberOfSeasons : Nat
  numberOfEpisodes : Nat
  seasons : List Season
deriving DecidableEq, Repr

/-- A `/credits` response: cast member names (in order) and crew as
(name, job) pairs. -/
structure Credits where
  cast : List String
  crew : List (String × String)
deriving DecidableEq, Repr

/-- One entry of a `/videos` response. -/
structure VideoEntry where
  key : String
  site : String
  official : Bool
deriving DecidableEq, Repr

/-- The `BR` block of a `/watch/providers` response: streaming / rent / buy
provider entries as (provider id, provider name). -/
structure WatchBR where
  flatrate : List (Nat × String)
  rent : List (Nat × String)
  buy : List (Nat × String)
deriving DecidableEq, Repr

/-- A `/watch/providers` response: the `results.BR` block may be absent. -/
structure ProvidersResp where
  br : Option WatchBR
deriving DecidableEq, Repr

/-- One entry of a `/movie/:id/release_dates` response: a country code and
the certification strings of its release dates (in order). -/
structure ReleaseEntry where
  iso : String
  certs : List String
deriving DecidableEq, Repr

/-- The merged detail record produced by `formatMovieDetails` /
`formatTVDetails` of `backend/src/services/tmdbService.js` — the fields read
by `CatalogSyncer.convertTMDBToMediaFormat`.  Secondary metadata carried
verbatim and never inspected by the sync pipeline (tagline, imdbId, image
URLs, budget/revenue, status, networks, spoken languages) is elided.
For movies `seasons`/`numberOfSeasons`/`numberOfEpisodes` are absent in the
source record; they are set to the neutral values `[]`/`0`/`0` here and the
code never reads them on the movie path. -/
structure Detail where
  tmdbId : Nat
  title : String
  originalTitle : String
  type : MediaType
  year : Option Int
  description : String
  ageRating : String
  tmdbAverage : ℚ
  tmdbCount : Nat
  popularity : ℚ
  genre : List String
  cast : List String
  crew : List String
  videos : List String
  availableOn : List String
  keywords : List String
  seasons : List Season
  numberOfSeasons : Nat
  numberOfEpisodes : Nat
deriving DecidableEq, Repr

namespace TMDBService

/-- `genreMapping` of `backend/src/services/tmdbService.js` (identical table
in `services/contentAggregator.js`): TMDB genre id → Portuguese name;
unmapped ids yield `none` and are dropped by the mappers. -/
def genreMapping : Nat → Option String
  | 28 => some "Ação"
  | 12 => some "Aventura"
  | 16 => some "Animação"
  | 35 => some "Comédia"
  | 80 => some "Crime"
  | 99 => some "Documentário"
  | 18 => some "Drama"
  | 10751 => some "Família"
  | 14 => some "Fantasia"
  | 36 => some "História"
  | 27 => some "Terror"
  | 10402 => some "Música"
  | 9648 => some "Mistério"
  | 10749 => some "Romance"
  | 878 => some "Ficção Científica"
  | 10770 => some "Filme para TV"
  | 53 => some "Thriller"
  | 10752 => some "Guerra"
  | 37 => some "Faroeste"
  | 10759 => some "Ação & Aventura"
  | 10762 => some "Infantil"
  | 10763 => some "Notícias"
  | 10764 => some "Reality"
  | 10765 => some "Sci-Fi & Fantasy"
  | 10766 => some "Novela"
  | 10767 => some "Talk Show"
  | 10768 => some "Guerra & Política"
  | _ => none

/-- `providerMapping` of `backend/src/services/tmdbService.js`. -/
def providerMapping : Nat → Option String
  | 8 => some "Netflix"
  | 119 => some "Amazon Prime Video"
  | 337 => some "Disney+"
  | 384 => some "HBO Max"
  | 307 => some "Globoplay"
  | 619 => some "Paramount+"
  | 350 => some "Apple TV+"
  | 283 => some "Crunchyroll"
  | 26 => some "Telecine Play"
  | 531 => some "Paramount+ Amazon Channel"
  | 1899 => some "Max Amazon Channel"
  | _ => none

/-- Keep the first occurrence of each element, dropping later duplicates:
the semantics of the spread of a `new Set(...)` in `formatWatchProviders`. -/
def dedupKeepFirst (l : List String) : List String :=
  (l.foldl (fun acc s => if s ∈ acc then acc else s :: acc) []).reverse

/-- `formatCast` of `backend/src/services/tmdbService.js`: first 20 cast
entries (only the names are modelled). -/
def formatCast (cast : List String) : List String :=
  cast.take 20

/-- `formatCrew`: keep people whose job is in the important-jobs list (only
names are modelled). -/
def formatCrew (crew : List (String × String)) : List String :=
  (crew.filter (fun person =>
    person.2 == "Director" || person.2 == "Producer" || person.2 == "Writer" ||
    person.2 == "Creator" || person.2 == "Executive Producer")).map Prod.fst

/-- `formatVideos`: official YouTube videos only (only keys are modelled). -/
def formatVideos (videos : List VideoEntry) : List String :=
  (videos.filter (fun v => v.site == "YouTube" && v.official)).map VideoEntry.key

/-- `formatWatchProviders`: concatenate flatrate/rent/buy for BR, map each
provider id through `providerMapping` (falling back to the remote-supplied
name for unmapped ids), and deduplicate as the `new Set` spread does. -/
def formatWatchProviders (providers : Option WatchBR) : List String :=
  match providers with
  | none => []
  | some w =>
    dedupKeepFirst ((w.flatrate ++ w.rent ++ w.buy).map
      (fun p => (providerMapping p.1).getD p.2))

/-- `getAgeRating`: look up the BR release entry; return its first
certification (an empty certification string is falsy in JS, so it falls back
to the default rating "L"), else "L". -/
def getAgeRating (releaseDates : List ReleaseEntry) : String :=
  match releaseDates.find? (fun rel => rel.iso == "BR") with
  | some br =>
    match br.certs.head? with
    | some c => if c = "" then "L" else c
    | none => "L"
  | none => "L"

/-- `getTVAgeRating`: look up the BR content rating; unlike the movie path,
the rating string is returned as-is when the entry exists. -/
def getTVAgeRating (contentRatings : List (String × String)) : String :=
  match contentRatings.find? (fun entry => entry.1 == "BR") with
  | some brRating => brRating.2
  | none => "L"

/-- `isAnime` applied to a TV detail record: Japanese origin (origin country
contains JP, or original language is ja) and the Animation genre (id 16)
among its genre objects. -/
def isAnimeCore (tv : TVCore) : Bool :=
  (tv.originCountry.contains "JP" || tv.originalLanguage == "ja") &&
    tv.genres.any (fun g => g.1 == 16)

/-- `generateSlug` (identical in both `tmdbService.js` copies): lowercase,
strip diacritics, drop characters outside lowercase letters / digits /
whitespace, turn whitespace runs into hyphens, collapse hyphen runs, trim.
NFD diacritic stripping is modelled as the identity (titles in the model are
taken to be already composed of base characters); the final JS `.trim()`
trims whitespace only, which no longer occurs at this point. -/
def generateSlug (title : String) : String :=
  let lowered := title.toLower
  let kept := lowered.data.filter (fun c => c.isLower || c.isDigit || c == ' ')
  let dashed := kept.map (fun c => if c == ' ' then '-' else c)
  let collapsed :=
    (dashed.foldl (fun acc c =>
      if c == '-' && acc.head? == some '-' then acc else c :: acc) []).reverse
  (String.mk collapsed).trim

/-- `formatMovieDetails` of `backend/src/services/tmdbService.js`: merge the
six movie sub-responses into one detail record. -/
def formatMovieDetails (movie : MovieCore) (credits : Credits)
    (videos : List VideoEntry) (watchProviders : ProvidersResp)
    (keywords : List String) (releases : List ReleaseEntry) : Detail where
  tmdbId := movie.id
  title := movie.title
  originalTitle := movie.originalTitle
  type := .movie
  year := movie.releaseYear
  description := movie.overview
  ageRating := getAgeRating releases
  tmdbAverage := movie.voteAverage
  tmdbCount := movie.voteCount
  popularity := movie.popularity
  genre := movie.genres
  cast := formatCast credits.cast
  crew := formatCrew credits.crew
  videos := formatVideos videos
  availableOn := formatWatchProviders watchProviders.br
  keywords := keywords
  seasons := []
  numberOfSeasons := 0
  numberOfEpisodes := 0

/-- `formatTVDetails`: merge the five TV sub-responses into one detail
record; the kind is `anime` or `series` according to `isAnime`. -/
def formatTVDetails (tv : TVCore) (credits : Credits)
    (videos : List VideoEntry) (watchProviders : ProvidersResp)
    (keywords : List String) : Detail where
  tmdbId := tv.id
  title := tv.name
  originalTitle := tv.originalName
  type := if isAnimeCore tv then .anime else .series
  year := tv.firstAirYear
  description := tv.overview
  ageRating := getTVAgeRating tv.contentRatings
  tmdbAverage := tv.voteAverage
  tmdbCount := tv.voteCount
  popularity := tv.popularity
  genre := tv.genres.map Prod.snd
  cast := formatCast credits.cast
  crew := formatCrew credits.crew
  videos := formatVideos videos
  availableOn := formatWatchProviders watchProviders.br
  keywords := keywords
  seasons := tv.seasons
  numberOfSeasons := tv.numberOfSeasons
  numberOfEpisodes := tv.numberOfEpisodes

end TMDBService

/-- The detail record produced by `services/tmdbService.js` (the pipeline-B
client) `formatMovieDetails`/`formatTVDetails` — the fields that
`ContentAggregator.convertMovieToMediaFormat` / `convertTVToMediaFormat`
read.  In that copy of the client `rating.tmdb` is the scalar average and
`rating.tmdbCount` the count; genre ids are exposed as `genreIds`; watch
providers are exposed raw (the aggregator formats them itself).  The same
structure serves movie and TV details (the movie-only and TV-only fields are
neutral on the other kind, and the converters never read them there). -/
structure AggDetail where
  tmdbId : Nat
  title : String
  originalTitle : String
  year : Option Int
  description : String
  genreIds : List Nat
  ageRating : String
  tmdbAverage : ℚ
  tmdbCount : Nat
  popularity : ℚ
  cast : List String
  watchFlatrate : List (Nat × String)
  watchRent : List (Nat × String)
  keywords : List String
  numberOfSeasons : Nat
  numberOfEpisodes : Nat
  seasons : List Season
deriving DecidableEq, Repr

/-- The remote catalog service, as seen through the two TMDB clients.  Each
field models one remote endpoint; the service is fixed data, so "an unchanged
remote source" is simply reusing the same `Remote` value.  Listing endpoints
return already-formatted summaries (`formatMoviesResponse` /
`formatTVResponse` / `formatSearchResponse` output); the `discover...` fields
model the specific discover queries issued by the orchestrator (priority
genre, Brazilian origin with the lowered 5.0 bar baked into the query, and
the Japanese-animation query of the anime strategy). -/
structure Remote where
  movieCore : Nat → Option MovieCore
  movieCredits : Nat → Option Credits
  movieVideos : Nat → Option (List VideoEntry)
  movieProviders : Nat → Option ProvidersResp
  movieKeywords : Nat → Option (List String)
  movieReleases : Nat → Option (List ReleaseEntry)
  tvCore : Nat → Option TVCore
  tvCredits : Nat → Option Credits
  tvVideos : Nat → Option (List VideoEntry)
  tvProviders : Nat → Option ProvidersResp
  tvKeywords : Nat → Option (List String)
  popularMovies : Nat → List Summary
  popularTV : Nat → List Summary
  nowPlaying : List Summary
  upcoming : List Summary
  topRatedMovies : List Summary
  topRatedTV : List Summary
  discoverMoviesByGenre : Nat → List Summary
  discoverTVByGenre : Nat → List Summary
  discoverMoviesBR : List Summary
  discoverTVBR : List Summary
  discoverAnimeJP : List Summary
  trendingAllWeek : List Summary
  trendingTVWeek : List Summary
  aggMovieDetail : Nat → Option AggDetail
  aggTVDetail : Nat → Option AggDetail

namespace TMDBService

/-- `getMovieDetails` of `backend/src/services/tmdbService.js`: a
`Promise.all` over the six movie sub-endpoints; if every sub-fetch succeeds
the responses are merged by `formatMovieDetails`, and if any one of them
rejects the whole call rejects. -/
def fetchMovieDetail (r : Remote) (id : Nat) : Option Detail :=
  match r.movieCore id, r.movieCredits id, r.movieVideos id, r.movieProviders id,
      r.movieKeywords id, r.movieReleases id with
  | some movie, some credits, some videos, some providers, some keywords, some releases =>
    some (formatMovieDetails movie credits videos providers keywords releases)
  | _, _, _, _, _, _ => none

/-- `getTVDetails`: a `Promise.all` over the five TV sub-endpoints, merged by
`formatTVDetails` when all succeed. -/
def fetchTVDetail (r : Remote) (id : Nat) : Option Detail :=
  match r.tvCore id, r.tvCredits id, r.tvVideos id, r.tvProviders id, r.tvKeywords id with
  | some tv, some credits, some videos, some providers, some keywords =>
    some (formatTVDetails tv credits videos providers keywords)
  | _, _, _, _, _ => none

/-- The detail dispatch `type === 'movie' ? getMovieDetails(id) :
getTVDetails(id)` used both by `CatalogSyncer.processBatch` and by
`CatalogSyncer.updateExistingContent`. -/
def fetchDetails (r : Remote) (t : MediaType) (id : Nat) : Option Detail :=
  if t == .movie then fetchMovieDetail r id else fetchTVDetail r id

end TMDBService

/-- A persisted `Media` document, restricted to the fields the sync pipeline
writes or reads.  `views`/`uniqueViews` stand for the `analytics` embedded
document (its further counters are copied/preserved exactly together with
these two in every code path modelled here).  `id` models the Mongo `_id`
(assigned at insert, unique). -/
structure MediaItem where
  id : Nat
  tmdbId : Nat
  type : MediaType
  title : String
  originalTitle : String
  year : Option Int
  description : String
  genre : List String
  ageRating : String
  tmdbAverage : ℚ
  tmdbCount : Nat
  internalAverage : ℚ
  internalCount : Nat
  cast : List String
  crew : List String
  availableOn : List String
  keywords : List String
  popularity : ℚ
  slug : String
  embedUrl : String
  seasons : List Season
  totalSeasons : Nat
  totalEpisodes : Nat
  views : Nat
  uniqueViews : Nat
  isActive : Bool
  featured : Bool
  trending : Bool
  createdAt : Int
  updatedAt : Int
  lastSyncAt : Int
deriving DecidableEq, Repr

/-- The persistent store plus the run counters the claims observe: the
`Media` collection (`items`, with `nextId` the next Mongo id), the
`stats.errors` counter, and a count of detail fetches issued (observability
for "the existence check precedes any fetchDetail call"). -/
structure SyncState where
  items : List MediaItem
  nextId : Nat
  errors : Nat
  fetches : Nat
deriving DecidableEq, Repr

/-- Does some document (active or not) carry the natural key
`(tmdbId, type)`?  This is what the `{ tmdbId: 1, type: 1 }` unique index
checks on every write. -/
def hasKey (tmdbId : Nat) (t : MediaType) (items : List MediaItem) : Bool :=
  items.any (fun m => m.tmdbId == tmdbId && m.type == t)

/-- `Media.findByTmdbId` (`backend/src/models/Media.js`):
`findOne({ tmdbId, type, isActive: true })` — note the `isActive: true`
filter. -/
def findByTmdbId (tmdbId : Nat) (t : MediaType) (items : List MediaItem) : Option MediaItem :=
  items.find? (fun m => m.tmdbId == tmdbId && m.type == t && m.isActive)

/-- `Media.findByIdAndUpdate(id, doc)` under the `{ tmdbId: 1, type: 1 }`
unique index: replace the document whose `_id` is `mid` by `u` (which
carries that same `_id`); if the new key would collide with a different
document's key, the write is rejected with a duplicate-key error, which the
callers catch, leaving the store unchanged. -/
def findByIdAndUpdate (st : SyncState) (mid : Nat) (u : MediaItem) : SyncState :=
  if st.items.any (fun x => x.id != mid && x.tmdbId == u.tmdbId && x.type == u.type) then st
  else { st with items := st.items.map (fun x => if x.id == mid then u else x) }

namespace CatalogSyncer

open TMDBService

/-- Staleness window of `updateExistingContent`: 7 days in milliseconds. -/
def sevenDaysMs : Int := 604800000

/-- Age threshold of `cleanupObsoleteContent`: 365 days in milliseconds. -/
def oneYearMs : Int := 31536000000

/-- `CatalogSyncer.convertTMDBToMediaFormat`
(`backend/src/jobs/syncCatalog.js`): build the document written to the
store from a detail record.  `internal` rating is reset to zero, `isActive`
is `true`, `featured` is `popularity > 50`, `trending` is `false`, and all
three timestamps are the current time.  The series-only fields are spread in
only for non-movies; on insert their absence means the schema defaults
(`[]`/`0`/`0`), which the `if` below reproduces.  `views`/`uniqueViews`
(the `analytics` document) are not part of the converted record; the insert
path gets the schema defaults `0`/`0` and the update path overrides them, so
they are set to `0` here.  The Mongo `_id` is assigned by the store; `id` is
a placeholder here. -/
def convertTMDBToMediaFormat (d : Detail) (now : Int) : MediaItem where
  id := 0
  tmdbId := d.tmdbId
  type := d.type
  title := d.title
  originalTitle := d.originalTitle
  year := d.year
  description := d.description
  genre := d.genre
  ageRating := d.ageRating
  tmdbAverage := d.tmdbAverage
  tmdbCount := d.tmdbCount
  internalAverage := 0
  internalCount := 0
  cast := d.cast
  crew := d.crew
  availableOn := d.availableOn
  keywords := d.keywords
  popularity := d.popularity
  slug := generateSlug d.title
  embedUrl := (if d.type == .movie then "/embed/movie/" else "/embed/series/") ++ toString d.tmdbId
  seasons := if d.type == .movie then [] else d.seasons
  totalSeasons := if d.type == .movie then 0 else d.numberOfSeasons
  totalEpisodes := if d.type == .movie then 0 else d.numberOfEpisodes
  views := 0
  uniqueViews := 0
  isActive := true
  featured := decide (50 < d.popularity)
  trending := false
  createdAt := now
  updatedAt := now
  lastSyncAt := now

/-- One iteration of the `for (const item of items)` loop of
`CatalogSyncer.processBatch`: check existence with `findByTmdbId` (which
sees only active items) and `continue` if found; otherwise fetch the full
detail (`getMovieDetails`/`getTVDetails` according to the batch type),
convert, and `save()`.  A fetch failure or a duplicate-key rejection of the
save by the `(tmdbId, type)` unique index is caught by the surrounding
`try`/`catch`, which counts one error and moves on.  Returns the state and
whether the item was inserted (`processed++`). -/
def processOneItem (r : Remote) (now : Int) (t : MediaType) (st : SyncState)
    (x : Summary) : SyncState × Bool :=
  match findByTmdbId x.tmdbId t st.items with
  | some _ => (st, false)
  | none =>
    let st := { st with fetches := st.fetches + 1 }
    match fetchDetails r t x.tmdbId with
    | none => ({ st with errors := st.errors + 1 }, false)
    | some d =>
      let doc := convertTMDBToMediaFormat d now
      if hasKey doc.tmdbId doc.type st.items then
        ({ st with errors := st.errors + 1 }, false)
      else
        ({ st with
            items := st.items ++ [{ doc with id := st.nextId }]
            nextId := st.nextId + 1 }, true)

/-- `CatalogSyncer.processBatch`: process the batch items in order,
returning the final state and the number of successfully inserted items. -/
def processBatch (r : Remote) (now : Int) (t : MediaType) :
    List Summary → SyncState → SyncState × Nat
  | [], st => (st, 0)
  | x :: xs, st =>
    let p := processOneItem r now t st x
    let q := processBatch r now t xs p.1
    (q.1, (if p.2 then 1 else 0) + q.2)

/-- One iteration of the page loops in `syncPopularMovies` /
`syncPopularSeries`: push the item into the pending batch if it passes the
admission predicate, then flush the batch through `processBatch` whenever it
has reached `batchSize` (10) entries. -/
def batchStep (r : Remote) (now : Int) (t : MediaType) (pred : Summary → Bool)
    (acc : SyncState × List Summary) (x : Summary) : SyncState × List Summary :=
  let batch := if pred x then acc.2 ++ [x] else acc.2
  if 10 ≤ batch.length then ((processBatch r now t batch acc.1).1, [])
  else (acc.1, batch)

/-- Process one listing page the way the page loops do: accumulate-and-flush
through `batchStep`, then flush the remaining partial batch. -/
def syncPageLoop (r : Remote) (now : Int) (t : MediaType) (pred : Summary → Bool)
    (results : List Summary) (st : SyncState) : SyncState :=
  let acc := results.foldl (batchStep r now t pred) (st, [])
  if 0 < acc.2.length then (processBatch r now t acc.2 acc.1).1 else acc.1

/-- Admission predicate of the global strategies: `rating.tmdb.average >=
minRating` with `minRating = 6.0`. -/
def admitMovie (x : Summary) : Bool :=
  decide ((6 : ℚ) ≤ x.tmdbAverage)

/-- Admission predicate of the series pages: rating at least 6.0 and
`type === 'series'`. -/
def admitSeries (x : Summary) : Bool :=
  decide ((6 : ℚ) ≤ x.tmdbAverage) && x.type == .series

/-- `CatalogSyncer.syncPopularMovies`: 20 popular pages through the
batch-flush loop, then now-playing (filtered by rating, first 50) and
top-rated (first 30, unfiltered) each through one `processBatch`. -/
def syncPopularMovies (r : Remote) (now : Int) (st : SyncState) : SyncState :=
  let st := (List.range 20).foldl
    (fun st p => syncPageLoop r now .movie admitMovie (r.popularMovies (p + 1)) st) st
  let st := (processBatch r now .movie ((r.nowPlaying.filter admitMovie).take 50) st).1
  (processBatch r now .movie (r.topRatedMovies.take 30) st).1

/-- `CatalogSyncer.syncPopularSeries`: 20 popular-TV pages through the
batch-flush loop (admitting rated `series` entries), then top-rated TV
filtered to `series`, first 30. -/
def syncPopularSeries (r : Remote) (now : Int) (st : SyncState) : SyncState :=
  let st := (List.range 20).foldl
    (fun st p => syncPageLoop r now .series admitSeries (r.popularTV (p + 1)) st) st
  (processBatch r now .series ((r.topRatedTV.filter (fun x => x.type == .series)).take 30) st).1

/-- `CatalogSyncer.syncPopularAnimes`: the Japanese-animation discover query
filtered to `anime` (first 100), then the weekly TV trending filtered to
`anime` (first 20); both processed as `anime` batches. -/
def syncPopularAnimes (r : Remote) (now : Int) (st : SyncState) : SyncState :=
  let st := (processBatch r now .anime
    ((r.discoverAnimeJP.filter (fun x => x.type == .anime)).take 100) st).1
  (processBatch r now .anime
    ((r.trendingTVWeek.filter (fun x => x.type == .anime)).take 20) st).1

/-- `config.priorityGenres.movies`. -/
def priorityMovieGenres : List Nat := [28, 35, 18, 53, 878, 27, 12, 14]

/-- `config.priorityGenres.tv`. -/
def priorityTVGenres : List Nat := [18, 35, 80, 10759, 9648, 16]

/-- `CatalogSyncer.syncByGenres`: per priority genre, the discover listing
sliced to `maxItemsPerGenre` (50) and then filtered by the admission
predicate (slice before filter, as in the source), processed as one batch. -/
def syncByGenres (r : Remote) (now : Int) (st : SyncState) : SyncState :=
  let st := priorityMovieGenres.foldl
    (fun st g => (processBatch r now .movie
      (((r.discoverMoviesByGenre g).take 50).filter admitMovie) st).1) st
  priorityTVGenres.foldl
    (fun st g => (processBatch r now .series
      (((r.discoverTVByGenre g).take 50).filter admitSeries) st).1) st

/-- `CatalogSyncer.syncBrazilianContent`: Brazilian discover results (the
lowered 5.0 rating bar is part of the discover query), movies first 50,
series filtered to `series` first 30. -/
def syncBrazilianContent (r : Remote) (now : Int) (st : SyncState) : SyncState :=
  let st := (processBatch r now .movie (r.discoverMoviesBR.take 50) st).1
  (processBatch r now .series
    ((r.discoverTVBR.filter (fun x => x.type == .series)).take 30) st).1

/-- The per-item loop of `CatalogSyncer.syncTrendingContent`: for each of
the top 50 weekly-trending entries, look the item up by `(tmdbId, type)`
(active only); collect its `_id` if found, otherwise run the entry through a
one-item `processBatch`, and if that inserted it (`processed > 0`), re-find
it and collect the new `_id`. -/
def collectTrending (r : Remote) (now : Int) :
    List Summary → SyncState → List Nat → SyncState × List Nat
  | [], st, ids => (st, ids)
  | x :: xs, st, ids =>
    match findByTmdbId x.tmdbId x.type st.items with
    | some m => collectTrending r now xs st (ids ++ [m.id])
    | none =>
      let p := processBatch r now x.type [x] st
      if 0 < p.2 then
        match findByTmdbId x.tmdbId x.type p.1.items with
        | some nm => collectTrending r now xs p.1 (ids ++ [nm.id])
        | none => collectTrending r now xs p.1 ids
      else collectTrending r now xs p.1 ids

/-- `CatalogSyncer.syncTrendingContent`: reset `trending` to `false` on every
document (`updateMany({}, { trending: false })`), collect the ids matched or
created from the top 50 weekly-trending entries, then set `trending: true`
and bump `updatedAt` on exactly the collected ids. -/
def syncTrendingContent (r : Remote) (now : Int) (st : SyncState) : SyncState :=
  let st1 : SyncState :=
    { st with items := st.items.map (fun m => { m with trending := false }) }
  let p := collectTrending r now (r.trendingAllWeek.take 50) st1 []
  { p.1 with items := p.1.items.map (fun m =>
      if p.2.contains m.id then { m with trending := true, updatedAt := now } else m) }

/-- One iteration of the media loop in `CatalogSyncer.updateExistingContent`
for the snapshot document `m`: re-fetch the detail with the
movie-or-TV dispatch; on fetch failure the inner `catch` only logs (no error
counter).  On success the update document is
`convertTMDBToMediaFormat(details)` with `lastSyncAt`/`updatedAt` set to now
(already the converter's values), `analytics` and `createdAt` copied forward
from the snapshot.  `findByIdAndUpdate` is a `$set` of the document's keys:
fields absent from the update document (the `analytics` counters beyond the
explicit copy, and the series-only keys when the detail is a movie) keep
their stored values.  A duplicate-key rejection by the unique index (the
update would move this document onto another document's `(tmdbId, type)`)
is caught by the same inner `catch` and leaves the document untouched. -/
def updateOneExisting (r : Remote) (now : Int) (st : SyncState) (m : MediaItem) : SyncState :=
  match fetchDetails r m.type m.tmdbId with
  | none => st
  | some d =>
    let base := convertTMDBToMediaFormat d now
    let u : MediaItem :=
      { base with
        id := m.id
        views := m.views
        uniqueViews := m.uniqueViews
        createdAt := m.createdAt
        seasons := if d.type == .movie then m.seasons else base.seasons
        totalSeasons := if d.type == .movie then m.totalSeasons else base.totalSeasons
        totalEpisodes := if d.type == .movie then m.totalEpisodes else base.totalEpisodes }
    findByIdAndUpdate st m.id u

/-- `CatalogSyncer.updateExistingContent`: select up to 200 documents whose
`lastSyncAt` is older than the 7-day staleness window and re-sync each.  The
source iterates the selection in slices of `batchSize` (10) with a delay
between slices; the slices partition the selection in order, so the fold
below performs the same updates in the same order. -/
def updateExistingContent (r : Remote) (now : Int) (st : SyncState) : SyncState :=
  let stale := (st.items.filter (fun m => decide (m.lastSyncAt < now - sevenDaysMs))).take 200
  stale.foldl (updateOneExisting r now) st

/-- `CatalogSyncer.cleanupObsoleteContent`: one `updateMany` deactivating
(`isActive: false`, `updatedAt` bumped) exactly the active documents with
fewer than 5 views, created more than a year ago, and with a TMDB average
below 5.0 — a conjunction of all three conditions. -/
def cleanupObsoleteContent (now : Int) (st : SyncState) : SyncState :=
  { st with items := st.items.map (fun m =>
      if m.isActive && m.views < 5 && decide (m.createdAt < now - oneYearMs)
          && decide (m.tmdbAverage < (5 : ℚ)) then
        { m with isActive := false, updatedAt := now }
      else m) }

/-- `CatalogSyncer.fullSync`: the eight phases in their declared order.  Each
phase catches its own exceptions, so a failing phase never aborts the rest;
in the model every phase is total.  The run-guard flag (`isRunning`) is the
trivial single-threaded guard and is not modelled. -/
def fullSync (r : Remote) (now : Int) (st : SyncState) : SyncState :=
  let st := syncPopularMovies r now st
  let st := syncPopularSeries r now st
  let st := syncPopularAnimes r now st
  let st := syncByGenres r now st
  let st := syncBrazilianContent r now st
  let st := syncTrendingContent r now st
  let st := updateExistingContent r now st
  cleanupObsoleteContent now st

/-- `CatalogSyncer.syncNewReleases`: now-playing movies rated at least 6.0
(first 20), then upcoming movies rated at least 7.0 (first 10). -/
def syncNewReleases (r : Remote) (now : Int) (st : SyncState) : SyncState :=
  let st := (processBatch r now .movie
    ((r.nowPlaying.filter (fun x => decide ((6 : ℚ) ≤ x.tmdbAverage))).take 20) st).1
  (processBatch r now .movie
    ((r.upcoming.filter (fun x => decide ((7 : ℚ) ≤ x.tmdbAverage))).take 10) st).1

end CatalogSyncer

namespace ContentAggregator

open TMDBService

/-- `providerMapping` of `services/contentAggregator.js` (a shorter table
than the backend client's: 9 entries, with 26 mapped to "Telecine"). -/
def providerMappingAgg : Nat → Option String
  | 8 => some "Netflix"
  | 119 => some "Amazon Prime Video"
  | 337 => some "Disney+"
  | 384 => some "HBO Max"
  | 307 => some "Globoplay"
  | 619 => some "Paramount+"
  | 350 => some "Apple TV+"
  | 283 => some "Crunchyroll"
  | 26 => some "Telecine"
  | _ => none

/-- `ContentAggregator.mapGenres`: map ids through the genre table (the
table literal in `contentAggregator.js` has repeated keys with identical
values, so its effective mapping equals `genreMapping`), dropping unmapped
ids. -/
def mapGenres (genreIds : List Nat) : List String :=
  (genreIds.map genreMapping).reduceOption

/-- `ContentAggregator.extractAvailableProviders`: push every flatrate
provider name (mapped through the table, falling back to the remote name),
then every rent provider name not already present, suffixed
" (Aluguel)". -/
def extractAvailableProviders (flatrate rent : List (Nat × String)) : List String :=
  let ps := flatrate.map (fun p => (providerMappingAgg p.1).getD p.2)
  rent.foldl (fun acc p =>
    let name := (providerMappingAgg p.1).getD p.2
    if acc.contains name then acc else acc ++ [name ++ " (Aluguel)"]) ps

/-- `ContentAggregator.convertMovieToMediaFormat`: the document built for a
movie detail.  `internal` rating starts at zero, `isActive` is `true`,
`featured` is `popularity > 50`, and — unlike the backend converter —
`trending` is `popularity > 100`.  All three timestamps are the current
time.  The movie converter carries no `analytics` and no series fields; on
insert those get the schema defaults, reproduced here. -/
def convertMovieToMediaFormat (d : AggDetail) (now : Int) : MediaItem where
  id := 0
  tmdbId := d.tmdbId
  type := .movie
  title := d.title
  originalTitle := d.originalTitle
  year := d.year
  description := d.description
  genre := mapGenres d.genreIds
  ageRating := d.ageRating
  tmdbAverage := d.tmdbAverage
  tmdbCount := d.tmdbCount
  internalAverage := 0
  internalCount := 0
  cast := d.cast
  crew := []
  availableOn := extractAvailableProviders d.watchFlatrate d.watchRent
  keywords := d.keywords
  popularity := d.popularity
  slug := generateSlug d.title
  embedUrl := "/embed/movie/" ++ toString d.tmdbId
  seasons := []
  totalSeasons := 0
  totalEpisodes := 0
  views := 0
  uniqueViews := 0
  isActive := true
  featured := decide (50 < d.popularity)
  trending := decide (100 < d.popularity)
  createdAt := now
  updatedAt := now
  lastSyncAt := now

/-- `ContentAggregator.convertTVToMediaFormat`: as the movie converter but
with `type` hardcoded to `'series'` and the season structure filled in.
(The crew mapping of the source is carried but its content is elided, as in
the movie converter.) -/
def convertTVToMediaFormat (d : AggDetail) (now : Int) : MediaItem where
  id := 0
  tmdbId := d.tmdbId
  type := .series
  title := d.title
  originalTitle := d.originalTitle
  year := d.year
  description := d.description
  genre := mapGenres d.genreIds
  ageRating := d.ageRating
  tmdbAverage := d.tmdbAverage
  tmdbCount := d.tmdbCount
  internalAverage := 0
  internalCount := 0
  cast := d.cast
  crew := []
  availableOn := extractAvailableProviders d.watchFlatrate d.watchRent
  keywords := d.keywords
  popularity := d.popularity
  slug := generateSlug d.title
  embedUrl := "/embed/series/" ++ toString d.tmdbId
  seasons := d.seasons
  totalSeasons := d.numberOfSeasons
  totalEpisodes := d.numberOfEpisodes
  views := 0
  uniqueViews := 0
  isActive := true
  featured := decide (50 < d.popularity)
  trending := decide (100 < d.popularity)
  createdAt := now
  updatedAt := now
  lastSyncAt := now

/-- `ContentAggregator.processAndSaveMovie`: look the movie up by
`{ tmdbId, type: 'movie' }` — note: no `isActive` filter here, unlike
`findByTmdbId` — and return it if present; otherwise fetch the detail
through the pipeline-B client, convert and `save()`.  Any error (fetch
failure or duplicate-key save rejection) is caught and yields `null`. -/
def processAndSaveMovie (r : Remote) (now : Int) (st : SyncState) (tmdbId : Nat) : SyncState :=
  match st.items.find? (fun m => m.tmdbId == tmdbId && m.type == .movie) with
  | some _ => st
  | none =>
    match r.aggMovieDetail tmdbId with
    | none => st
    | some d =>
      let doc := convertMovieToMediaFormat d now
      if hasKey doc.tmdbId doc.type st.items then st
      else { st with
              items := st.items ++ [{ doc with id := st.nextId }]
              nextId := st.nextId + 1 }

/-- One iteration of the media loop in
`ContentAggregator.updateExistingContent` for the snapshot document `m`.
Movies and series are re-fetched through the pipeline-B client and
rewritten; a document whose stored type is `anime` matches neither branch
and is left untouched.  The update document copies `createdAt` and
`rating.internal` forward from the snapshot, and `updatedData.views =
media.views` assigns a field that is not in the schema (the view counters
live under `analytics`), so the `$set` leaves the analytics counters
untouched; both effects preserve them.  A duplicate-key rejection by the
unique index is caught by the inner `catch` and leaves the document
untouched. -/
def aggUpdateOne (r : Remote) (now : Int) (st : SyncState) (m : MediaItem) : SyncState :=
  match m.type with
  | .anime => st
  | .movie =>
    match r.aggMovieDetail m.tmdbId with
    | none => st
    | some d =>
      let base := convertMovieToMediaFormat d now
      let u : MediaItem :=
        { base with
          id := m.id
          views := m.views
          uniqueViews := m.uniqueViews
          createdAt := m.createdAt
          internalAverage := m.internalAverage
          internalCount := m.internalCount
          seasons := m.seasons
          totalSeasons := m.totalSeasons
          totalEpisodes := m.totalEpisodes }
      findByIdAndUpdate st m.id u
  | .series =>
    match r.aggTVDetail m.tmdbId with
    | none => st
    | some d =>
      let base := convertTVToMediaFormat d now
      let u : MediaItem :=
        { base with
          id := m.id
          views := m.views
          uniqueViews := m.uniqueViews
          createdAt := m.createdAt
          internalAverage := m.internalAverage
          internalCount := m.internalCount }
      findByIdAndUpdate st m.id u

/-- `ContentAggregator.updateExistingContent`: select up to 100 documents
older than the 7-day staleness window and rewrite each through
`aggUpdateOne`. -/
def updateExistingContent (r : Remote) (now : Int) (st : SyncState) : SyncState :=
  let stale := (st.items.filter
    (fun m => decide (m.lastSyncAt < now - CatalogSyncer.sevenDaysMs))).take 100
  stale.foldl (aggUpdateOne r now) st

end ContentAggregator

namespace ScriptsSyncer

/-- A BSON-ish value, used to give the exact-equality semantics of a Mongo
query whose value is a plain object (no top-level operator). -/
inductive BLeaf where
  | num : ℚ → BLeaf
  | str : String → BLeaf
deriving DecidableEq, Repr

/-- A field of a BSON-ish embedded document: a leaf, a nested flat document,
or an operator object such as the one written as a dollar-lt comparison. -/
inductive BField where
  | leaf : BLeaf → BField
  | sub : List (String × BLeaf) → BField
  | op : String → BLeaf → BField
deriving DecidableEq, Repr

/-- A BSON-ish embedded document: ordered field list. -/
abbrev BDoc := List (String × BField)

/-- The `rating` embedded document of a persisted `Media` document: the
schema gives it the fields `ageRating`, `tmdb` (with `average`, `count`) and
`internal` (with `average`, `count`), all with defaults, so every persisted
document has exactly this shape. -/
def ratingBson (m : MediaItem) : BDoc :=
  [("ageRating", .leaf (.str m.ageRating)),
   ("tmdb", .sub [("average", .num m.tmdbAverage), ("count", .num (m.tmdbCount : ℚ))]),
   ("internal", .sub [("average", .num m.internalAverage), ("count", .num (m.internalCount : ℚ))])]

/-- The value supplied for `rating` in the cleanup query of
`scripts/syncCatalog.js`: the literal object binding the single key
"tmdb.average" to a less-than-5.0 operator object.  Because the value is a
plain object and not an operator expression, MongoDB treats the condition as
an exact-equality match of the embedded `rating` document against this
literal. -/
def scriptsRatingQueryLiteral : BDoc :=
  [("tmdb.average", .op "lt" (.num 5))]

/-- `CatalogSyncer.cleanupObsoleteContent` of `scripts/syncCatalog.js`: the
`updateMany` filter is `isActive: true`, `analytics.views` below 10,
`createdAt` older than a year, and `rating: {'tmdb.average': {...}}` — the
last clause being the exact-subdocument equality above rather than a dotted
comparison. -/
def cleanupObsoleteContent (now : Int) (st : SyncState) : SyncState :=
  { st with items := st.items.map (fun m =>
      if m.isActive && m.views < 10 && decide (m.createdAt < now - CatalogSyncer.oneYearMs)
          && decide (ratingBson m = scriptsRatingQueryLiteral) then
        { m with isActive := false, updatedAt := now }
      else m) }

/-- `CatalogSyncer.syncTrendingContent` of `scripts/syncCatalog.js`: reset
`trending` on all documents, then flag the documents matching the first 20
entries of popular-movies page 1 (`type: 'movie'`) and the first 20 entries
of popular-TV page 1 (`type: 'series'`).  No entry is ever inserted by this
pass. -/
def syncTrendingContent (r : Remote) (now : Int) (st : SyncState) : SyncState :=
  let st1 : SyncState :=
    { st with items := st.items.map (fun m => { m with trending := false }) }
  let movieIds := ((r.popularMovies 1).take 20).map Summary.tmdbId
  let st2 : SyncState :=
    { st1 with items := st1.items.map (fun m =>
        if movieIds.contains m.tmdbId && m.type == .movie then
          { m with trending := true, updatedAt := now }
        else m) }
  let seriesIds := ((r.popularTV 1).take 20).map Summary.tmdbId
  { st2 with items := st2.items.map (fun m =>
      if seriesIds.contains m.tmdbId && m.type == .series then
        { m with trending := true, updatedAt := now }
      else m) }

end ScriptsSyncer

namespace TMDBService

/-- One queued outbound request of the backend client's rate limiter: an
identifier (its position-independent name) and the time the awaited HTTP
call takes. -/
structure QueuedRequest where
  reqId : Nat
  duration : Int
deriving DecidableEq, Repr

/-- `TMDBService.processQueue`: shift requests off the front of the queue
(FIFO), await each, and sleep `requestDelay` after a request only while the
queue is still nonempty; when the queue empties the loop exits (and
`isProcessingQueue` is cleared, so a later `makeRequest` starts a fresh
run).  The result is the list of (request id, issue time) pairs of one
processing run started at time `t`. -/
def processQueue (requestDelay : Int) : List QueuedRequest → Int → List (Nat × Int)
  | [], _ => []
  | q :: qs, t =>
    (q.reqId, t) ::
      processQueue requestDelay qs
        (t + q.duration + (if qs.isEmpty then 0 else requestDelay))

/-- Two back-to-back processing runs: the first run starts at time 0 with a
single queued request of duration `d1`; the queue then drains and the run
ends, and a request enqueued `gap` later triggers a fresh run.  This is
exactly the shape produced by a caller that awaits one `makeRequest` and
then issues the next. -/
def twoSequentialRuns (requestDelay d1 d2 gap : Int) : List (Nat × Int) :=
  processQueue requestDelay [⟨1, d1⟩] 0 ++
    processQueue requestDelay [⟨2, d2⟩] (d1 + gap)

/-- The process-local response cache (`new NodeCache({ stdTTL: 3600 })`):
entries keyed by the string cache key, holding the response payload and its
expiry instant (store time + TTL, in seconds). -/
structure ResponseCache where
  entries : List (String × String × Int)
deriving DecidableEq, Repr

/-- Cache lookup at time `now`: an entry answers only before its expiry. -/
def cacheGet (c : ResponseCache) (key : String) (now : Int) : Option String :=
  match c.entries.find? (fun e => e.1 == key) with
  | some e => if now < e.2.2 then some e.2.1 else none
  | none => none

/-- Cache store: replace any entry under the same key. -/
def cacheSet (c : ResponseCache) (key data : String) (expiry : Int) : ResponseCache :=
  { entries := (key, data, expiry) :: c.entries.filter (fun e => !(e.1 == key)) }

/-- The cache key of `makeRequest`: endpoint and serialized params joined by
an underscore (`JSON.stringify` of the params object; equal endpoint/params
pairs serialize equally). -/
def cacheKeyOf (endpoint paramsJson : String) : String :=
  endpoint ++ "_" ++ paramsJson

/-- stdTTL of the response cache: 3600 seconds (about one hour). -/
def cacheTTL : Int := 3600

/-- Observable outcome of one `makeRequest`: the returned payload, the cache
afterwards, and how many outbound HTTP calls were issued (0 on a cache hit,
1 otherwise). -/
structure RequestOutcome where
  result : Option String
  cache : ResponseCache
  outboundCalls : Nat
deriving DecidableEq, Repr

/-- `TMDBService.makeRequest` / `processQueue`, cache-wise: a cache hit
resolves immediately without queuing; otherwise the request is queued and
eventually issued outbound — on success `processQueue` stores the response
under the cache key with the stdTTL expiry and resolves, on failure it
rejects without touching the cache.  `netResponse` is the outcome of the
axios call for this request; the queue affects when the call is issued, not
whether or what is cached, and is modelled separately by `processQueue`. -/
def makeRequest (endpoint paramsJson : String) (netResponse : Option String)
    (now : Int) (c : ResponseCache) : RequestOutcome :=
  let key := cacheKeyOf endpoint paramsJson
  match cacheGet c key now with
  | some v => ⟨some v, c, 0⟩
  | none =>
    match netResponse with
    | some data => ⟨some data, cacheSet c key data (now + cacheTTL), 1⟩
    | none => ⟨none, c, 1⟩

end TMDBService

namespace CatalogSyncer

/-- Run a list of batches in order: the normal form into which every
discovery strategy of `fullSync` reduces. -/
def runBatches (r : Remote) (now : Int) (bs : List (MediaType × List Summary))
    (st : SyncState) : SyncState :=
  bs.foldl (fun st b => (processBatch r now b.1 b.2 st).1) st

/-- The batches processed by `syncPopularMovies`, in order. -/
def popularMoviesBatches (r : Remote) : List (MediaType × List Summary) :=
  ((List.range 20).map
    (fun p => (MediaType.movie, (r.popularMovies (p + 1)).filter admitMovie)))
  ++ [(MediaType.movie, (r.nowPlaying.filter admitMovie).take 50),
      (MediaType.movie, r.topRatedMovies.take 30)]

/-- The batches processed by `syncPopularSeries`, in order. -/
def popularSeriesBatches (r : Remote) : List (MediaType × List Summary) :=
  ((List.range 20).map
    (fun p => (MediaType.series, (r.popularTV (p + 1)).filter admitSeries)))
  ++ [(MediaType.series, (r.topRatedTV.filter (fun x => x.type == .series)).take 30)]

/-- The batches processed by `syncPopularAnimes`, in order. -/
def popularAnimesBatches (r : Remote) : List (MediaType × List Summary) :=
  [(MediaType.anime, (r.discoverAnimeJP.filter (fun x => x.type == .anime)).take 100),
   (MediaType.anime, (r.trendingTVWeek.filter (fun x => x.type == .anime)).take 20)]

/-- The batches processed by `syncByGenres`, in order. -/
def byGenresBatches (r : Remote) : List (MediaType × List Summary) :=
  (priorityMovieGenres.map
    (fun g => (MediaType.movie, ((r.discoverMoviesByGenre g).take 50).filter admitMovie)))
  ++ (priorityTVGenres.map
    (fun g => (MediaType.series, ((r.discoverTVByGenre g).take 50).filter admitSeries)))

/-- The batches processed by `syncBrazilianContent`, in order. -/
def brazilianBatches (r : Remote) : List (MediaType × List Summary) :=
  [(MediaType.movie, r.discoverMoviesBR.take 50),
   (MediaType.series, (r.discoverTVBR.filter (fun x => x.type == .series)).take 30)]

/-- All batches of the five discovery strategies of `fullSync`, in their
execution order. -/
def fullSyncBatches (r : Remote) : List (MediaType × List Summary) :=
  popularMoviesBatches r ++ popularSeriesBatches r ++ popularAnimesBatches r
    ++ byGenresBatches r ++ brazilianBatches r

end CatalogSyncer

/-! ### Store invariants, remote consistency, key stability and coverage -/

/-- At most one document per natural key `(tmdbId, type)` — the invariant
enforced by the `{ tmdbId: 1, type: 1 }` unique index. -/
def KeysUniq (l : List MediaItem) : Prop :=
  l.Pairwise (fun a b => a.tmdbId ≠ b.tmdbId ∨ a.type ≠ b.type)

/-- Mongo `_id`s are pairwise distinct. -/
def IdsUniq (l : List MediaItem) : Prop :=
  l.Pairwise (fun a b => a.id ≠ b.id)

/-- Store well-formedness: unique keys, unique ids, and every id below the
next id to be assigned. -/
def StoreInv (st : SyncState) : Prop :=
  KeysUniq st.items ∧ IdsUniq st.items ∧ ∀ m ∈ st.items, m.id < st.nextId

/-- Propositional version of `hasKey`. -/
def HasKeyB (tmdbId : Nat) (t : MediaType) (l : List MediaItem) : Prop :=
  ∃ m ∈ l, m.tmdbId = tmdbId ∧ m.type = t

/-- The remote returns detail records whose embedded id echoes the requested
id: the only well-formedness the model assumes of the remote service. -/
def RemoteOk (r : Remote) : Prop :=
  (∀ id c, r.movieCore id = some c → c.id = id) ∧
  (∀ id c, r.tvCore id = some c → c.id = id)

/-- The summary appears in some TV-side or trending listing of the remote. -/
def ListedTV (r : Remote) (s : Summary) : Prop :=
  (∃ p, s ∈ r.popularTV p) ∨ s ∈ r.topRatedTV ∨ (∃ g, s ∈ r.discoverTVByGenre g) ∨
    s ∈ r.discoverTVBR ∨ s ∈ r.discoverAnimeJP ∨ s ∈ r.trendingTVWeek ∨
    s ∈ r.trendingAllWeek

/-- The `isAnime` classification of a listed TV summary agrees with the
classification of its detail record — in the source both are computed by the
same `isAnime` helper from the same show's data. -/
def TvAgree (r : Remote) : Prop :=
  ∀ s, ListedTV r s → s.type ≠ .movie →
    ∀ d, TMDBService.fetchTVDetail r s.tmdbId = some d → d.type = s.type

/-- Re-fetching `id` with the dispatch of kind `τ` yields a detail that still
carries the key `(id, τ)`. -/
def StableKey (r : Remote) (id : Nat) (τ : MediaType) : Prop :=
  ∀ d, TMDBService.fetchDetails r τ id = some d → d.tmdbId = id ∧ d.type = τ

/-- The batch entry `(t, id)` cannot insert: either its detail fetch fails,
or the key the insert would use is already present (and is stable under
re-fetching, so no later pass can free it). -/
def CovOne (r : Remote) (t : MediaType) (id : Nat) (l : List MediaItem) : Prop :=
  ∀ d, TMDBService.fetchDetails r t id = some d →
    StableKey r d.tmdbId d.type ∧ HasKeyB d.tmdbId d.type l

/-- Fetching the batch entry with kind `t` yields the key `(tmdbId, t)`
(and that key is stable): holds for movie batches by remote
well-formedness, and for series/anime batches by listing agreement. -/
def AgreeOne (r : Remote) (t : MediaType) (x : Summary) : Prop :=
  ∀ d, TMDBService.fetchDetails r t x.tmdbId = some d →
    d.tmdbId = x.tmdbId ∧ d.type = t ∧ StableKey r x.tmdbId t

/-- Every entry of every batch `fullSync` can ever process — the five
discovery strategies and the trending pass — is covered: its detail fetch
either fails or hits an already-present (stable) key; under this condition a
second `fullSync` run against the same remote inserts nothing. -/
def FullCoverage (r : Remote) (l : List MediaItem) : Prop :=
  (∀ b ∈ CatalogSyncer.fullSyncBatches r, ∀ x ∈ b.2, CovOne r b.1 x.tmdbId l) ∧
  (∀ x ∈ r.trendingAllWeek.take 50, CovOne r x.type x.tmdbId l)

/-- Frame relation of one `CatalogSyncer.updateExistingContent` pass: the
`_id`, `createdAt` and the analytics counters always survive, and a document
is either untouched or rewritten with the `internal` rating reset to zero,
`isActive` forced to `true`, and `lastSyncAt` set to the pass time. -/
def PreservedJobs (now : Int) (a b : MediaItem) : Prop :=
  b.id = a.id ∧ b.createdAt = a.createdAt ∧ b.views = a.views ∧
    b.uniqueViews = a.uniqueViews ∧
    (b = a ∨ (b.internalAverage = 0 ∧ b.internalCount = 0 ∧ b.isActive = true ∧
      b.lastSyncAt = now))

/-- Frame relation of one `ContentAggregator.updateExistingContent` pass:
the `_id`, `createdAt`, the analytics counters and the `internal` rating
always survive, and a document is either untouched or rewritten with
`isActive` forced to `true` and `lastSyncAt` set to the pass time. -/
def PreservedAgg (now : Int) (a b : MediaItem) : Prop :=
  b.id = a.id ∧ b.createdAt = a.createdAt ∧ b.views = a.views ∧
    b.uniqueViews = a.uniqueViews ∧ b.internalAverage = a.internalAverage ∧
    b.internalCount = a.internalCount ∧
    (b = a ∨ (b.isActive = true ∧ b.lastSyncAt = now))

/-! ### Concrete sample data

A small remote service and a few concrete stores, used to instantiate the
theorems below at closed inputs. -/

/-- The rational 7.5, written in lowest terms so that kernel evaluation of
the decidable comparisons below never normalizes a fraction. -/
def q75 : ℚ := ⟨15, 2, by decide, by decide⟩

/-- The rational 4.2 in lowest terms. -/
def q42 : ℚ := ⟨21, 5, by decide, by decide⟩

instance (l : List MediaItem) : Decidable (KeysUniq l) := by
  unfold KeysUniq
  infer_instance

instance (l : List MediaItem) : Decidable (IdsUniq l) := by
  unfold IdsUniq
  infer_instance

instance (st : SyncState) : Decidable (StoreInv st) := by
  unfold StoreInv
  infer_instance

/-- A remote on which every endpoint fails or returns an empty listing. -/
def emptyRemote : Remote where
  movieCore := fun _ => none
  movieCredits := fun _ => none
  movieVideos := fun _ => none
  movieProviders := fun _ => none
  movieKeywords := fun _ => none
  movieReleases := fun _ => none
  tvCore := fun _ => none
  tvCredits := fun _ => none
  tvVideos := fun _ => none
  tvProviders := fun _ => none
  tvKeywords := fun _ => none
  popularMovies := fun _ => []
  popularTV := fun _ => []
  nowPlaying := []
  upcoming := []
  topRatedMovies := []
  topRatedTV := []
  discoverMoviesByGenre := fun _ => []
  discoverTVByGenre := fun _ => []
  discoverMoviesBR := []
  discoverTVBR := []
  discoverAnimeJP := []
  trendingAllWeek := []
  trendingTVWeek := []
  aggMovieDetail := fun _ => none
  aggTVDetail := fun _ => none

/-- The `/movie/550` core record served by `sampleRemote`. -/
def sampleMovieCore : MovieCore where
  id := 550
  title := "Fight Club"
  originalTitle := "Fight Club"
  releaseYear := some 1999
  overview := "Two men run an underground club"
  voteAverage := q75
  voteCount := 100
  popularity := 150
  genres := ["Drama"]

/-- A remote serving exactly one movie, id 550, rated 7.5: its six movie
sub-endpoints succeed, every TV endpoint fails, and the movie appears on
popular-movies page 1 and in the weekly all-media trending listing. -/
def sampleRemote : Remote := { emptyRemote with
  movieCore := fun i => if i = 550 then some sampleMovieCore else none
  movieCredits := fun _ => some ⟨["Edward Norton"], [("David Fincher", "Director")]⟩
  movieVideos := fun _ => some []
  movieProviders := fun _ => some ⟨some ⟨[(8, "Netflix")], [], []⟩⟩
  movieKeywords := fun _ => some ["cult"]
  movieReleases := fun _ => some [⟨"BR", ["16"]⟩]
  popularMovies := fun p => if p = 1 then [⟨550, .movie, q75⟩] else []
  trendingAllWeek := [⟨550, .movie, q75⟩] }

/-- `sampleRemote` with its movie-credits sub-endpoint failing: one of the
six concurrent sub-fetches of `getMovieDetails` rejects. -/
def partialRemote : Remote := { sampleRemote with movieCredits := fun _ => none }

/-- The detail record for movie 550 served by the pipeline-B client of
`sampleAggRemote`: external rating 7.5, popularity 150. -/
def sampleAggDetail : AggDetail where
  tmdbId := 550
  title := "Fight Club"
  originalTitle := "Fight Club"
  year := some 1999
  description := "Two men run an underground club"
  genreIds := [18]
  ageRating := "16"
  tmdbAverage := q75
  tmdbCount := 100
  popularity := 150
  cast := ["Edward Norton"]
  watchFlatrate := [(8, "Netflix")]
  watchRent := []
  keywords := ["cult"]
  numberOfSeasons := 0
  numberOfEpisodes := 0
  seasons := []

/-- A remote whose pipeline-B movie-detail endpoint serves movie 550. -/
def sampleAggRemote : Remote :=
  { emptyRemote with aggMovieDetail := fun i => if i = 550 then some sampleAggDetail else none }

/-- The empty store. -/
def emptyState : SyncState := ⟨[], 1, 0, 0⟩

/-- A persisted copy of movie 550 with accumulated engagement data (123
views, an internal rating of 4.2 over 10 votes) whose `lastSyncAt` is just
outside the 7-day staleness window of a run at time 0. -/
def staleItem : MediaItem where
  id := 7
  tmdbId := 550
  type := .movie
  title := "Fight Club"
  originalTitle := "Fight Club"
  year := some 1999
  description := "Two men run an underground club"
  genre := ["Drama"]
  ageRating := "16"
  tmdbAverage := q75
  tmdbCount := 100
  internalAverage := q42
  internalCount := 10
  cast := ["Edward Norton"]
  crew := ["David Fincher"]
  availableOn := ["Netflix"]
  keywords := ["cult"]
  popularity := 150
  slug := "fight-club"
  embedUrl := "/embed/movie/550"
  seasons := []
  totalSeasons := 0
  totalEpisodes := 0
  views := 123
  uniqueViews := 45
  isActive := true
  featured := true
  trending := false
  createdAt := -900000000
  updatedAt := -604800001
  lastSyncAt := -604800001

/-- A store holding only `staleItem`. -/
def staleStore : SyncState := ⟨[staleItem], 8, 0, 0⟩

/-- An active item with 2 views, created 400 days before time 40000000000,
with a TMDB average of 4.0: all three cleanup conditions hold. -/
def lowRatedOldItem : MediaItem where
  id := 1
  tmdbId := 101
  type := .movie
  title := "Forgotten"
  originalTitle := "Forgotten"
  year := some 2010
  description := "An old film"
  genre := []
  ageRating := "L"
  tmdbAverage := 4
  tmdbCount := 12
  internalAverage := 0
  internalCount := 0
  cast := []
  crew := []
  availableOn := []
  keywords := []
  popularity := 1
  slug := "forgotten"
  embedUrl := "/embed/movie/101"
  seasons := []
  totalSeasons := 0
  totalEpisodes := 0
  views := 2
  uniqueViews := 2
  isActive := true
  featured := false
  trending := false
  createdAt := 5440000000
  updatedAt := 5440000000
  lastSyncAt := 5440000000

/-- The same item except for a TMDB average of 7.0: only two of the three
cleanup conditions hold. -/
def wellRatedOldItem : MediaItem :=
  { lowRatedOldItem with id := 2, tmdbId := 102, tmdbAverage := 7 }

/-- A store holding `lowRatedOldItem` and `wellRatedOldItem`. -/
def oldStore : SyncState := ⟨[lowRatedOldItem, wellRatedOldItem], 3, 0, 0⟩

/-- A soft-deactivated (`isActive = false`) persisted copy of movie 550. -/
def softDeletedItem : MediaItem :=
  { staleItem with id := 3, isActive := false, views := 9000, lastSyncAt := 0 }

/-- A store holding only the soft-deactivated copy of movie 550. -/
def softDeletedStore : SyncState := ⟨[softDeletedItem], 4, 0, 0⟩

/-! ### Basic facts -/

theorem hasKey_iff {i : Nat} {t : MediaType} {l : List MediaItem} :
    hasKey i t l = true ↔ HasKeyB i t l := by
  simp [hasKey, HasKeyB, List.any_eq_true]

theorem hasKey_eq_false_iff {i : Nat} {t : MediaType} {l : List MediaItem} :
    hasKey i t l = false ↔ ¬ HasKeyB i t l := by
  rw [← hasKey_iff]
  cases h : hasKey i t l <;> simp [h]

theorem findByTmdbId_eq_none_iff {i : Nat} {t : MediaType} {l : List MediaItem} :
    findByTmdbId i t l = none ↔
      ∀ m ∈ l, m.tmdbId = i → m.type = t → m.isActive = false := by
  simp only [findByTmdbId, List.find?_eq_none, Bool.and_eq_true, beq_iff_eq]
  constructor
  · intro h m hm hi ht
    have := h m hm
    simp [hi, ht] at this
    exact this
  · intro h m hm
    intro hc
    obtain ⟨⟨hi, ht⟩, ha⟩ := hc
    have := h m hm hi ht
    rw [this] at ha
    exact Bool.false_ne_true ha

theorem findByTmdbId_eq_some {i : Nat} {t : MediaType} {l : List MediaItem}
    {m : MediaItem} (h : findByTmdbId i t l = some m) :
    m ∈ l ∧ m.tmdbId = i ∧ m.type = t ∧ m.isActive = true := by
  have hmem := List.mem_of_find?_eq_some h
  have hp := List.find?_some h
  simp only [Bool.and_eq_true, beq_iff_eq] at hp
  exact ⟨hmem, hp.1.1, hp.1.2, hp.2⟩

theorem findByTmdbId_isSome_hasKey {i : Nat} {t : MediaType} {l : List MediaItem}
    {m : MediaItem} (h : findByTmdbId i t l = some m) : HasKeyB i t l := by
  obtain ⟨hm, hi, ht, _⟩ := findByTmdbId_eq_some h
  exact ⟨m, hm, hi, ht⟩

/-- In a key-unique store, a present key whose document is inactive is
invisible to `findByTmdbId`. -/
theorem findByTmdbId_eq_none_of_inactive {l : List MediaItem} {m : MediaItem}
    (hu : KeysUniq l) (hm : m ∈ l) (hin : m.isActive = false) :
    findByTmdbId m.tmdbId m.type l = none := by
  rw [findByTmdbId_eq_none_iff]
  intro m' hm' hi ht
  by_cases he : m' = m
  · rw [he]; exact hin
  · exfalso
    have hsymm : Symmetric (fun a b : MediaItem => a.tmdbId ≠ b.tmdbId ∨ a.type ≠ b.type) := by
      intro a b hab
      rcases hab with h | h
      · exact Or.inl (Ne.symm h)
      · exact Or.inr (Ne.symm h)
    have := List.Pairwise.forall hsymm hu hm' hm he
    rcases this with h | h
    · exact h hi
    · exact h ht

/-- In an id-unique list, two members sharing an id are equal. -/
theorem eq_of_mem_of_id_eq {l : List MediaItem} {a b : MediaItem}
    (hu : IdsUniq l) (ha : a ∈ l) (hb : b ∈ l) (h : a.id = b.id) : a = b := by
  by_contra hne
  have hsymm : Symmetric (fun a b : MediaItem => a.id ≠ b.id) := by
    intro x y hxy
    exact Ne.symm hxy
  exact List.Pairwise.forall hsymm hu ha hb hne h

theorem keysUniq_map {l : List MediaItem} {g : MediaItem → MediaItem}
    (hg : ∀ x, (g x).tmdbId = x.tmdbId ∧ (g x).type = x.type) (h : KeysUniq l) :
    KeysUniq (l.map g) := by
  rw [KeysUniq, List.pairwise_map]
  refine h.imp ?_
  intro a b hab
  rcases hab with h1 | h1
  · exact Or.inl (by rw [(hg a).1, (hg b).1]; exact h1)
  · exact Or.inr (by rw [(hg a).2, (hg b).2]; exact h1)

theorem hasKeyB_map_iff {i : Nat} {τ : MediaType} {l : List MediaItem}
    {g : MediaItem → MediaItem}
    (hg : ∀ x, (g x).tmdbId = x.tmdbId ∧ (g x).type = x.type) :
    HasKeyB i τ (l.map g) ↔ HasKeyB i τ l := by
  simp only [HasKeyB, List.mem_map]
  constructor
  · rintro ⟨m, ⟨x, hx, rfl⟩, hi, ht⟩
    exact ⟨x, hx, by rw [← (hg x).1]; exact hi, by rw [← (hg x).2]; exact ht⟩
  · rintro ⟨x, hx, hi, ht⟩
    exact ⟨g x, ⟨x, hx, rfl⟩, by rw [(hg x).1]; exact hi, by rw [(hg x).2]; exact ht⟩

theorem storeInv_map {st : SyncState} {g : MediaItem → MediaItem}
    (hkey : ∀ x, (g x).tmdbId = x.tmdbId ∧ (g x).type = x.type)
    (hid : ∀ x, (g x).id = x.id) (h : StoreInv st) :
    StoreInv { st with items := st.items.map g } := by
  obtain ⟨hk, hi, hb⟩ := h
  refine ⟨keysUniq_map hkey hk, ?_, ?_⟩
  · rw [IdsUniq, List.pairwise_map]
    refine hi.imp ?_
    intro a b hab
    rw [hid a, hid b]
    exact hab
  · intro m hm
    rw [List.mem_map] at hm
    obtain ⟨x, hx, rfl⟩ := hm
    rw [hid x]
    exact hb x hx

theorem hasKeyB_append_left {i : Nat} {τ : MediaType} {l l' : List MediaItem}
    (h : HasKeyB i τ l) : HasKeyB i τ (l ++ l') := by
  obtain ⟨m, hm, hi, ht⟩ := h
  exact ⟨m, List.mem_append_left _ hm, hi, ht⟩

/-! ### Characterization of one `processBatch` iteration -/

namespace CatalogSyncer

open TMDBService

theorem processOneItem_spec (r : Remote) (now : Int) (t : MediaType)
    (st : SyncState) (x : Summary) :
    (∃ m, findByTmdbId x.tmdbId t st.items = some m ∧
      processOneItem r now t st x = (st, false))
    ∨ (findByTmdbId x.tmdbId t st.items = none ∧
        fetchDetails r t x.tmdbId = none ∧
        processOneItem r now t st x
          = ({ st with fetches := st.fetches + 1, errors := st.errors + 1 }, false))
    ∨ (∃ d, findByTmdbId x.tmdbId t st.items = none ∧
        fetchDetails r t x.tmdbId = some d ∧
        HasKeyB d.tmdbId d.type st.items ∧
        processOneItem r now t st x
          = ({ st with fetches := st.fetches + 1, errors := st.errors + 1 }, false))
    ∨ (∃ d, findByTmdbId x.tmdbId t st.items = none ∧
        fetchDetails r t x.tmdbId = some d ∧
        ¬ HasKeyB d.tmdbId d.type st.items ∧
        processOneItem r now t st x
          = ({ st with
                items := st.items ++ [{ convertTMDBToMediaFormat d now with id := st.nextId }]
                nextId := st.nextId + 1
                fetches := st.fetches + 1 }, true)) := by
  unfold processOneItem
  cases hfind : findByTmdbId x.tmdbId t st.items with
  | some m => exact Or.inl ⟨m, rfl, rfl⟩
  | none =>
    cases hfetch : fetchDetails r t x.tmdbId with
    | none => exact Or.inr (Or.inl ⟨rfl, rfl, rfl⟩)
    | some d =>
      by_cases hk : HasKeyB d.tmdbId d.type st.items
      · refine Or.inr (Or.inr (Or.inl ⟨d, rfl, rfl, hk, ?_⟩))
        have : hasKey (convertTMDBToMediaFormat d now).tmdbId
            (convertTMDBToMediaFormat d now).type st.items = true := by
          rw [hasKey_iff]
          exact hk
        simp only [this, if_true]
      · refine Or.inr (Or.inr (Or.inr ⟨d, rfl, rfl, hk, ?_⟩))
        have : hasKey (convertTMDBToMediaFormat d now).tmdbId
            (convertTMDBToMediaFormat d now).type st.items = false := by
          rw [hasKey_eq_false_iff]
          exact hk
        simp only [this, if_false, Bool.false_eq_true]

end CatalogSyncer

namespace TMDBService

theorem fetchMovieDetail_fields {r : Remote} {id : Nat} {d : Detail}
    (hr : RemoteOk r) (h : fetchMovieDetail r id = some d) :
    d.tmdbId = id ∧ d.type = .movie := by
  unfold fetchMovieDetail at h
  cases hc : r.movieCore id with
  | none => rw [hc] at h; exact absurd h (by simp)
  | some movie =>
    rw [hc] at h
    cases h1 : r.movieCredits id <;> rw [h1] at h <;>
      cases h2 : r.movieVideos id <;> rw [h2] at h <;>
      cases h3 : r.movieProviders id <;> rw [h3] at h <;>
      cases h4 : r.movieKeywords id <;> rw [h4] at h <;>
      cases h5 : r.movieReleases id <;> rw [h5] at h <;>
      simp only [Option.some.injEq] at h
    all_goals first
      | (exact absurd h (by simp))
      | (subst h; exact ⟨hr.1 id movie hc, rfl⟩)

theorem fetchTVDetail_fields {r : Remote} {id : Nat} {d : Detail}
    (hr : RemoteOk r) (h : fetchTVDetail r id = some d) :
    d.tmdbId = id ∧ d.type ≠ .movie := by
  unfold fetchTVDetail at h
  cases hc : r.tvCore id with
  | none => rw [hc] at h; exact absurd h (by simp)
  | some tv =>
    rw [hc] at h
    cases h1 : r.tvCredits id <;> rw [h1] at h <;>
      cases h2 : r.tvVideos id <;> rw [h2] at h <;>
      cases h3 : r.tvProviders id <;> rw [h3] at h <;>
      cases h4 : r.tvKeywords id <;> rw [h4] at h <;>
      simp only [Option.some.injEq] at h
    all_goals first
      | (exact absurd h (by simp))
      | (subst h
         refine ⟨hr.2 id tv hc, ?_⟩
         simp only [formatTVDetails]
         by_cases hA : isAnimeCore tv <;> simp [hA])

end TMDBService

theorem agreeOne_movie {r : Remote} (hr : RemoteOk r) (x : Summary) :
    AgreeOne r .movie x := by
  intro d hd
  simp only [TMDBService.fetchDetails, beq_self_eq_true, if_true] at hd
  obtain ⟨hid, hty⟩ := TMDBService.fetchMovieDetail_fields hr hd
  refine ⟨hid, hty, ?_⟩
  intro d' hd'
  simp only [TMDBService.fetchDetails, beq_self_eq_true, if_true] at hd'
  exact TMDBService.fetchMovieDetail_fields hr hd'

theorem agreeOne_tv {r : Remote} {t : MediaType} {x : Summary}
    (hr : RemoteOk r) (ha : TvAgree r) (hl : ListedTV r x) (hxt : x.type = t)
    (hm : t ≠ .movie) : AgreeOne r t x := by
  have hbeq : (t == MediaType.movie) = false := by
    cases t <;> simp_all
  intro d hd
  simp only [TMDBService.fetchDetails, hbeq, Bool.false_eq_true, if_false] at hd
  obtain ⟨hid, _⟩ := TMDBService.fetchTVDetail_fields hr hd
  have hty : d.type = t := by
    rw [← hxt]
    exact ha x hl (by rw [hxt]; exact hm) d hd
  refine ⟨hid, hty, ?_⟩
  intro d' hd'
  simp only [TMDBService.fetchDetails, hbeq, Bool.false_eq_true, if_false] at hd'
  obtain ⟨hid', _⟩ := TMDBService.fetchTVDetail_fields hr hd'
  have hty' : d'.type = t := by
    rw [← hxt]
    exact ha x hl (by rw [hxt]; exact hm) d' hd'
  exact ⟨hid', hty'⟩

namespace CatalogSyncer

open TMDBService

theorem processOneItem_inv {r : Remote} {now : Int} {t : MediaType}
    {st : SyncState} {x : Summary} (h : StoreInv st) :
    StoreInv (processOneItem r now t st x).1 := by
  rcases processOneItem_spec r now t st x with
    ⟨m, _, he⟩ | ⟨_, _, he⟩ | ⟨d, _, _, _, he⟩ | ⟨d, _, _, hk, he⟩
  · rw [he]; exact h
  · rw [he]; exact h
  · rw [he]; exact h
  · rw [he]
    obtain ⟨hkeys, hids, hb⟩ := h
    refine ⟨?_, ?_, ?_⟩
    · rw [KeysUniq, List.pairwise_append]
      refine ⟨hkeys, List.pairwise_singleton _ _, ?_⟩
      intro a ha b hbmem
      rw [List.mem_singleton] at hbmem
      subst hbmem
      by_contra hcon
      push_neg at hcon
      exact hk ⟨a, ha, hcon.1, hcon.2⟩
    · rw [IdsUniq, List.pairwise_append]
      refine ⟨hids, List.pairwise_singleton _ _, ?_⟩
      intro a ha b hbmem
      rw [List.mem_singleton] at hbmem
      subst hbmem
      exact Nat.ne_of_lt (hb a ha)
    · intro m hm
      rw [List.mem_append, List.mem_singleton] at hm
      rcases hm with hm | hm
      · exact Nat.lt_trans (hb m hm) (Nat.lt_succ_self _)
      · subst hm
        exact Nat.lt_succ_self _

theorem processOneItem_hasKey {r : Remote} {now : Int} {t : MediaType}
    {st : SyncState} {x : Summary} {i : Nat} {τ : MediaType}
    (h : HasKeyB i τ st.items) :
    HasKeyB i τ (processOneItem r now t st x).1.items := by
  rcases processOneItem_spec r now t st x with
    ⟨m, _, he⟩ | ⟨_, _, he⟩ | ⟨d, _, _, _, he⟩ | ⟨d, _, _, hk, he⟩ <;>
    rw [he]
  · exact h
  · exact h
  · exact h
  · exact hasKeyB_append_left h

theorem processOneItem_covOne {r : Remote} {now : Int} {t t' : MediaType}
    {st : SyncState} {x : Summary} {id : Nat}
    (h : CovOne r t' id st.items) :
    CovOne r t' id (processOneItem r now t st x).1.items := by
  intro d hd
  obtain ⟨hstb, hkey⟩ := h d hd
  exact ⟨hstb, processOneItem_hasKey hkey⟩

theorem processOneItem_est {r : Remote} {now : Int} {t : MediaType}
    {st : SyncState} {x : Summary} (ha : AgreeOne r t x) :
    CovOne r t x.tmdbId (processOneItem r now t st x).1.items := by
  rcases processOneItem_spec r now t st x with
    ⟨m, hf, he⟩ | ⟨_, hn, he⟩ | ⟨d, _, hfe, hk, he⟩ | ⟨d, _, hfe, hk, he⟩
  · rw [he]
    intro d hd
    obtain ⟨hid, hty, hstb⟩ := ha d hd
    rw [hid, hty]
    exact ⟨hstb, findByTmdbId_isSome_hasKey hf⟩
  · intro d hd
    rw [hn] at hd
    cases hd
  · rw [he]
    intro d' hd'
    rw [hfe] at hd'
    injection hd' with hdd
    subst hdd
    obtain ⟨hid, hty, hstb⟩ := ha d hfe
    refine ⟨?_, hk⟩
    rw [hid, hty]
    exact hstb
  · rw [he]
    intro d' hd'
    rw [hfe] at hd'
    injection hd' with hdd
    subst hdd
    obtain ⟨hid, hty, hstb⟩ := ha d hfe
    refine ⟨by rw [hid, hty]; exact hstb, ?_⟩
    refine ⟨{ convertTMDBToMediaFormat d now with id := st.nextId }, ?_, rfl, rfl⟩
    exact List.mem_append_right _ (List.mem_singleton.2 rfl)

theorem processOneItem_covered {r : Remote} {now : Int} {t : MediaType}
    {st : SyncState} {x : Summary} (hc : CovOne r t x.tmdbId st.items) :
    (processOneItem r now t st x).1.items = st.items ∧
      (processOneItem r now t st x).1.nextId = st.nextId := by
  rcases processOneItem_spec r now t st x with
    ⟨m, _, he⟩ | ⟨_, _, he⟩ | ⟨d, _, _, _, he⟩ | ⟨d, _, hfe, hk, he⟩
  · rw [he]; exact ⟨rfl, rfl⟩
  · rw [he]; exact ⟨rfl, rfl⟩
  · rw [he]; exact ⟨rfl, rfl⟩
  · exact absurd (hc d hfe).2 hk

theorem processBatch_nil (r : Remote) (now : Int) (t : MediaType) (st : SyncState) :
    processBatch r now t [] st = (st, 0) := rfl

theorem processBatch_cons (r : Remote) (now : Int) (t : MediaType)
    (x : Summary) (xs : List Summary) (st : SyncState) :
    processBatch r now t (x :: xs) st
      = ((processBatch r now t xs (processOneItem r now t st x).1).1,
         (if (processOneItem r now t st x).2 then 1 else 0)
           + (processBatch r now t xs (processOneItem r now t st x).1).2) := rfl

theorem processBatch_inv {r : Remote} {now : Int} {t : MediaType}
    {xs : List Summary} {st : SyncState} (h : StoreInv st) :
    StoreInv (processBatch r now t xs st).1 := by
  induction xs generalizing st with
  | nil => rw [processBatch_nil]; exact h
  | cons x xs ih =>
    rw [processBatch_cons]
    exact ih (processOneItem_inv h)

theorem processBatch_hasKey {r : Remote} {now : Int} {t : MediaType}
    {xs : List Summary} {st : SyncState} {i : Nat} {τ : MediaType}
    (h : HasKeyB i τ st.items) :
    HasKeyB i τ (processBatch r now t xs st).1.items := by
  induction xs generalizing st with
  | nil => rw [processBatch_nil]; exact h
  | cons x xs ih =>
    rw [processBatch_cons]
    exact ih (processOneItem_hasKey h)

theorem processBatch_covOne {r : Remote} {now : Int} {t t' : MediaType}
    {xs : List Summary} {st : SyncState} {id : Nat}
    (h : CovOne r t' id st.items) :
    CovOne r t' id (processBatch r now t xs st).1.items := by
  intro d hd
  obtain ⟨hstb, hkey⟩ := h d hd
  exact ⟨hstb, processBatch_hasKey hkey⟩

theorem processBatch_est {r : Remote} {now : Int} {t : MediaType}
    {xs : List Summary} {st : SyncState}
    (ha : ∀ x ∈ xs, AgreeOne r t x) :
    ∀ x ∈ xs, CovOne r t x.tmdbId (processBatch r now t xs st).1.items := by
  induction xs generalizing st with
  | nil => intro x hx; cases hx
  | cons y ys ih =>
    intro x hx
    rw [processBatch_cons]
    rcases List.mem_cons.1 hx with hx | hx
    · subst hx
      exact processBatch_covOne (processOneItem_est (ha x (List.mem_cons_self _ _)))
    · exact ih (fun z hz => ha z (List.mem_cons_of_mem _ hz)) x hx

theorem processBatch_covered {r : Remote} {now : Int} {t : MediaType}
    {xs : List Summary} {st : SyncState}
    (hc : ∀ x ∈ xs, CovOne r t x.tmdbId st.items) :
    (processBatch r now t xs st).1.items = st.items ∧
      (processBatch r now t xs st).1.nextId = st.nextId := by
  induction xs generalizing st with
  | nil => rw [processBatch_nil]; exact ⟨rfl, rfl⟩
  | cons x xs ih =>
    rw [processBatch_cons]
    obtain ⟨hit, hnx⟩ := processOneItem_covered (hc x (List.mem_cons_self _ _))
    have hrest := @ih (processOneItem r now t st x).1
      (fun z hz => by rw [hit]; exact hc z (List.mem_cons_of_mem _ hz))
    rw [hrest.1, hrest.2, hit, hnx]
    exact ⟨rfl, rfl⟩

end CatalogSyncer

namespace CatalogSyncer

theorem processBatch_append (r : Remote) (now : Int) (t : MediaType)
    (xs ys : List Summary) (st : SyncState) :
    (processBatch r now t (xs ++ ys) st).1
      = (processBatch r now t ys (processBatch r now t xs st).1).1 := by
  induction xs generalizing st with
  | nil => rw [List.nil_append, processBatch_nil]
  | cons x xs ih =>
    rw [List.cons_append, processBatch_cons, processBatch_cons]
    exact ih _

theorem foldl_batchStep_spec (r : Remote) (now : Int) (t : MediaType)
    (pred : Summary → Bool) :
    ∀ (results : List Summary) (st : SyncState) (b : List Summary),
    (if 0 < (results.foldl (batchStep r now t pred) (st, b)).2.length
     then (processBatch r now t (results.foldl (batchStep r now t pred) (st, b)).2
            (results.foldl (batchStep r now t pred) (st, b)).1).1
     else (results.foldl (batchStep r now t pred) (st, b)).1)
    = (processBatch r now t (b ++ results.filter pred) st).1 := by
  intro results
  induction results with
  | nil =>
    intro st b
    rw [List.foldl_nil, List.filter_nil, List.append_nil]
    cases b with
    | nil => rw [processBatch_nil]; simp
    | cons c cs => simp
  | cons x rest ih =>
    intro st b
    rw [List.foldl_cons]
    by_cases hp : pred x
    · rw [List.filter_cons_of_pos hp]
      show (if 0 < (rest.foldl _ (batchStep r now t pred (st, b) x)).2.length then _ else _) = _
      rw [batchStep]
      simp only [hp, if_true]
      by_cases hlen : 10 ≤ (b ++ [x]).length
      · rw [if_pos hlen]
        rw [ih ((processBatch r now t (b ++ [x]) st).1) []]
        rw [List.nil_append]
        conv_rhs => rw [← List.singleton_append, ← List.append_assoc, processBatch_append]
      · rw [if_neg hlen]
        rw [ih st (b ++ [x])]
        rw [List.append_assoc, List.singleton_append]
    · rw [List.filter_cons_of_neg hp]
      show (if 0 < (rest.foldl _ (batchStep r now t pred (st, b) x)).2.length then _ else _) = _
      rw [batchStep]
      simp only [hp, Bool.false_eq_true, if_false]
      by_cases hlen : 10 ≤ b.length
      · rw [if_pos hlen]
        rw [ih ((processBatch r now t b st).1) []]
        rw [List.nil_append]
        conv_rhs => rw [processBatch_append]
      · rw [if_neg hlen]
        exact ih st b

/-- The accumulate-and-flush page loop processes exactly the admitted items
of the page, in order. -/
theorem syncPageLoop_eq (r : Remote) (now : Int) (t : MediaType)
    (pred : Summary → Bool) (results : List Summary) (st : SyncState) :
    syncPageLoop r now t pred results st
      = (processBatch r now t (results.filter pred) st).1 := by
  have h := foldl_batchStep_spec r now t pred results st []
  rw [List.nil_append] at h
  exact h

theorem runBatches_nil (r : Remote) (now : Int) (st : SyncState) :
    runBatches r now [] st = st := rfl

theorem runBatches_cons (r : Remote) (now : Int) (b : MediaType × List Summary)
    (bs : List (MediaType × List Summary)) (st : SyncState) :
    runBatches r now (b :: bs) st
      = runBatches r now bs ((processBatch r now b.1 b.2 st).1) := rfl

theorem runBatches_append (r : Remote) (now : Int)
    (bs cs : List (MediaType × List Summary)) (st : SyncState) :
    runBatches r now (bs ++ cs) st = runBatches r now cs (runBatches r now bs st) := by
  simp [runBatches, List.foldl_append]

theorem runBatches_inv {r : Remote} {now : Int}
    {bs : List (MediaType × List Summary)} {st : SyncState} (h : StoreInv st) :
    StoreInv (runBatches r now bs st) := by
  induction bs generalizing st with
  | nil => exact h
  | cons b bs ih => exact ih (processBatch_inv h)

theorem runBatches_hasKey {r : Remote} {now : Int}
    {bs : List (MediaType × List Summary)} {st : SyncState} {i : Nat} {τ : MediaType}
    (h : HasKeyB i τ st.items) :
    HasKeyB i τ (runBatches r now bs st).items := by
  induction bs generalizing st with
  | nil => exact h
  | cons b bs ih => exact ih (processBatch_hasKey h)

theorem runBatches_covOne {r : Remote} {now : Int} {t' : MediaType}
    {bs : List (MediaType × List Summary)} {st : SyncState} {id : Nat}
    (h : CovOne r t' id st.items) :
    CovOne r t' id (runBatches r now bs st).items := by
  intro d hd
  obtain ⟨hstb, hkey⟩ := h d hd
  exact ⟨hstb, runBatches_hasKey hkey⟩

theorem runBatches_est {r : Remote} {now : Int}
    {bs : List (MediaType × List Summary)} {st : SyncState}
    (ha : ∀ b ∈ bs, ∀ x ∈ b.2, AgreeOne r b.1 x) :
    ∀ b ∈ bs, ∀ x ∈ b.2, CovOne r b.1 x.tmdbId (runBatches r now bs st).items := by
  induction bs generalizing st with
  | nil => intro b hb; cases hb
  | cons c cs ih =>
    intro b hb x hx
    rcases List.mem_cons.1 hb with hb | hb
    · subst hb
      show CovOne r b.1 x.tmdbId (runBatches r now cs ((processBatch r now b.1 b.2 st).1)).items
      exact runBatches_covOne
        (processBatch_est (ha b (List.mem_cons_self _ _)) x hx)
    · exact ih (fun c' hc' => ha c' (List.mem_cons_of_mem _ hc')) b hb x hx

theorem runBatches_covered {r : Remote} {now : Int}
    {bs : List (MediaType × List Summary)} {st : SyncState}
    (hc : ∀ b ∈ bs, ∀ x ∈ b.2, CovOne r b.1 x.tmdbId st.items) :
    (runBatches r now bs st).items = st.items ∧
      (runBatches r now bs st).nextId = st.nextId := by
  induction bs generalizing st with
  | nil => exact ⟨rfl, rfl⟩
  | cons b bs ih =>
    obtain ⟨hit, hnx⟩ := processBatch_covered (hc b (List.mem_cons_self _ _))
    rw [runBatches_cons]
    have hrest := @ih (processBatch r now b.1 b.2 st).1
      (fun c hc' x hx => by rw [hit]; exact hc c (List.mem_cons_of_mem _ hc') x hx)
    rw [hrest.1, hrest.2, hit, hnx]
    exact ⟨rfl, rfl⟩

end CatalogSyncer

namespace CatalogSyncer

theorem runBatches_map_singletons {α : Type} (r : Remote) (now : Int) (t : MediaType)
    (f : α → List Summary) (l : List α) (st : SyncState) :
    runBatches r now (l.map (fun p => (t, f p))) st
      = l.foldl (fun st p => (processBatch r now t (f p) st).1) st := by
  induction l generalizing st with
  | nil => rfl
  | cons p ps ih =>
    rw [List.map_cons, runBatches_cons, List.foldl_cons]
    exact ih _

theorem foldl_pageLoop_eq (r : Remote) (now : Int) (t : MediaType)
    (pred : Summary → Bool) (f : Nat → List Summary) (l : List Nat) (st : SyncState) :
    l.foldl (fun st p => syncPageLoop r now t pred (f p) st) st
      = l.foldl (fun st p => (processBatch r now t ((f p).filter pred) st).1) st :=
  List.foldl_ext _ _ st (fun a b _ => syncPageLoop_eq r now t pred (f b) a)

theorem syncPopularMovies_eq (r : Remote) (now : Int) (st : SyncState) :
    syncPopularMovies r now st = runBatches r now (popularMoviesBatches r) st := by
  unfold syncPopularMovies popularMoviesBatches
  rw [runBatches_append,
    runBatches_map_singletons r now .movie (fun p => (r.popularMovies (p + 1)).filter admitMovie),
    foldl_pageLoop_eq r now .movie admitMovie (fun p => r.popularMovies (p + 1))]
  rfl

theorem syncPopularSeries_eq (r : Remote) (now : Int) (st : SyncState) :
    syncPopularSeries r now st = runBatches r now (popularSeriesBatches r) st := by
  unfold syncPopularSeries popularSeriesBatches
  rw [runBatches_append,
    runBatches_map_singletons r now .series (fun p => (r.popularTV (p + 1)).filter admitSeries),
    foldl_pageLoop_eq r now .series admitSeries (fun p => r.popularTV (p + 1))]
  rfl

theorem syncPopularAnimes_eq (r : Remote) (now : Int) (st : SyncState) :
    syncPopularAnimes r now st = runBatches r now (popularAnimesBatches r) st := rfl

theorem syncByGenres_eq (r : Remote) (now : Int) (st : SyncState) :
    syncByGenres r now st = runBatches r now (byGenresBatches r) st := by
  unfold syncByGenres byGenresBatches
  rw [runBatches_append,
    runBatches_map_singletons r now .movie
      (fun g => ((r.discoverMoviesByGenre g).take 50).filter admitMovie),
    runBatches_map_singletons r now .series
      (fun g => ((r.discoverTVByGenre g).take 50).filter admitSeries)]

theorem syncBrazilianContent_eq (r : Remote) (now : Int) (st : SyncState) :
    syncBrazilianContent r now st = runBatches r now (brazilianBatches r) st := rfl

/-- The five discovery strategies of `fullSync` are exactly the
`fullSyncBatches` run in order. -/
theorem strategies_eq_runBatches (r : Remote) (now : Int) (st : SyncState) :
    syncBrazilianContent r now (syncByGenres r now (syncPopularAnimes r now
      (syncPopularSeries r now (syncPopularMovies r now st))))
      = runBatches r now (fullSyncBatches r) st := by
  rw [syncPopularMovies_eq, syncPopularSeries_eq, syncPopularAnimes_eq,
    syncByGenres_eq, syncBrazilianContent_eq]
  unfold fullSyncBatches
  rw [runBatches_append, runBatches_append, runBatches_append, runBatches_append]

end CatalogSyncer

/-! ### The guarded replace-by-id write -/

theorem forall₂_map_self {P : MediaItem → MediaItem → Prop} {l : List MediaItem}
    {g : MediaItem → MediaItem} (h : ∀ x ∈ l, P x (g x)) :
    List.Forall₂ P l (l.map g) := by
  induction l with
  | nil => exact List.Forall₂.nil
  | cons a l ih =>
    exact List.Forall₂.cons (h a (List.mem_cons_self _ _))
      (ih fun x hx => h x (List.mem_cons_of_mem _ hx))

theorem forall₂_trans_of {P : MediaItem → MediaItem → Prop}
    (hP : ∀ a b c, P a b → P b c → P a c) :
    ∀ {l1 l2 l3 : List MediaItem},
      List.Forall₂ P l1 l2 → List.Forall₂ P l2 l3 → List.Forall₂ P l1 l3 := by
  intro l1 l2 l3 h12
  induction h12 generalizing l3 with
  | nil =>
    intro h23
    cases h23
    exact List.Forall₂.nil
  | cons hab h ih =>
    intro h23
    cases h23 with
    | cons hbc h' => exact List.Forall₂.cons (hP _ _ _ hab hbc) (ih h')

theorem preservedJobs_refl (now : Int) (a : MediaItem) : PreservedJobs now a a :=
  ⟨rfl, rfl, rfl, rfl, Or.inl rfl⟩

theorem preservedJobs_trans (now : Int) (a b c : MediaItem)
    (h1 : PreservedJobs now a b) (h2 : PreservedJobs now b c) :
    PreservedJobs now a c := by
  obtain ⟨hid1, hc1, hv1, hu1, hd1⟩ := h1
  obtain ⟨hid2, hc2, hv2, hu2, hd2⟩ := h2
  refine ⟨hid2.trans hid1, hc2.trans hc1, hv2.trans hv1, hu2.trans hu1, ?_⟩
  rcases hd2 with rfl | hs
  · exact hd1
  · exact Or.inr hs

theorem preservedAgg_refl (now : Int) (a : MediaItem) : PreservedAgg now a a :=
  ⟨rfl, rfl, rfl, rfl, rfl, rfl, Or.inl rfl⟩

theorem preservedAgg_trans (now : Int) (a b c : MediaItem)
    (h1 : PreservedAgg now a b) (h2 : PreservedAgg now b c) :
    PreservedAgg now a c := by
  obtain ⟨hid1, hc1, hv1, hu1, hia1, hic1, hd1⟩ := h1
  obtain ⟨hid2, hc2, hv2, hu2, hia2, hic2, hd2⟩ := h2
  refine ⟨hid2.trans hid1, hc2.trans hc1, hv2.trans hv1, hu2.trans hu1,
    hia2.trans hia1, hic2.trans hic1, ?_⟩
  rcases hd2 with rfl | hs
  · exact hd1
  · exact Or.inr hs

theorem findByIdAndUpdate_nextId (st : SyncState) (mid : Nat) (u : MediaItem) :
    (findByIdAndUpdate st mid u).nextId = st.nextId := by
  unfold findByIdAndUpdate
  split <;> rfl

theorem findByIdAndUpdate_guard_false {st : SyncState} {mid : Nat} {u : MediaItem}
    (hguard : ¬ (st.items.any
      (fun x => x.id != mid && x.tmdbId == u.tmdbId && x.type == u.type)) = true) :
    ∀ x ∈ st.items, x.id ≠ mid → ¬(x.tmdbId = u.tmdbId ∧ x.type = u.type) := by
  intro x hx hxid hcon
  apply hguard
  rw [List.any_eq_true]
  refine ⟨x, hx, ?_⟩
  simp [hxid, hcon.1, hcon.2]

theorem findByIdAndUpdate_inv {st : SyncState} {mid : Nat} {u : MediaItem}
    (hinv : StoreInv st) (hu : u.id = mid) :
    StoreInv (findByIdAndUpdate st mid u) := by
  unfold findByIdAndUpdate
  split
  · exact hinv
  · rename_i hguard
    obtain ⟨hkeys, hids, hb⟩ := hinv
    have hgd := findByIdAndUpdate_guard_false hguard
    have hgid : ∀ x : MediaItem, (if x.id == mid then u else x).id = x.id := by
      intro x
      by_cases hx : x.id = mid
      · rw [if_pos (by simpa using hx), hu, hx]
      · rw [if_neg (by simpa using hx)]
    refine ⟨?_, ?_, ?_⟩
    · rw [KeysUniq, List.pairwise_map]
      refine List.Pairwise.imp_of_mem ?_ (hkeys.and hids)
      intro a b ha hbmem hab
      obtain ⟨hk, hidne⟩ := hab
      by_cases hA : a.id = mid <;> by_cases hB : b.id = mid
      · exact absurd (hA.trans hB.symm) hidne
      · rw [if_pos (by simpa using hA), if_neg (by simpa using hB)]
        by_contra hcc
        push_neg at hcc
        exact hgd b hbmem hB ⟨hcc.1.symm, hcc.2.symm⟩
      · rw [if_neg (by simpa using hA), if_pos (by simpa using hB)]
        by_contra hcc
        push_neg at hcc
        exact hgd a ha hA ⟨hcc.1, hcc.2⟩
      · rw [if_neg (by simpa using hA), if_neg (by simpa using hB)]
        exact hk
    · rw [IdsUniq, List.pairwise_map]
      refine List.Pairwise.imp_of_mem ?_ hids
      intro a b _ _ hab
      rw [hgid a, hgid b]
      exact hab
    · intro m hm
      rw [List.mem_map] at hm
      obtain ⟨x, hx, rfl⟩ := hm
      rw [hgid x]
      exact hb x hx

theorem findByIdAndUpdate_mem_of_ne {st : SyncState} {mid : Nat} {u : MediaItem}
    {m' : MediaItem} (hm' : m' ∈ st.items) (hne : m'.id ≠ mid) :
    m' ∈ (findByIdAndUpdate st mid u).items := by
  unfold findByIdAndUpdate
  split
  · exact hm'
  · show m' ∈ st.items.map _
    rw [List.mem_map]
    exact ⟨m', hm', by rw [if_neg (by simpa using hne)]⟩

theorem findByIdAndUpdate_forall₂ {st : SyncState} {mid : Nat} {u : MediaItem}
    {P : MediaItem → MediaItem → Prop}
    (hrefl : ∀ x ∈ st.items, P x x) (hup : ∀ x ∈ st.items, x.id = mid → P x u) :
    List.Forall₂ P st.items (findByIdAndUpdate st mid u).items := by
  unfold findByIdAndUpdate
  split
  · exact List.forall₂_same.2 hrefl
  · apply forall₂_map_self
    intro x hx
    by_cases hxid : x.id = mid
    · rw [if_pos (by simpa using hxid)]
      exact hup x hx hxid
    · rw [if_neg (by simpa using hxid)]
      exact hrefl x hx

theorem findByIdAndUpdate_hasKey {st : SyncState} {mid : Nat} {u : MediaItem}
    {i : Nat} {τ : MediaType}
    (hkeep : ∀ w ∈ st.items, w.id = mid → w.tmdbId = i → w.type = τ →
      u.tmdbId = i ∧ u.type = τ)
    (h : HasKeyB i τ st.items) : HasKeyB i τ (findByIdAndUpdate st mid u).items := by
  unfold findByIdAndUpdate
  split
  · exact h
  · obtain ⟨w, hw, hwi, hwt⟩ := h
    by_cases hwid : w.id = mid
    · obtain ⟨hui, hut⟩ := hkeep w hw hwid hwi hwt
      refine ⟨u, ?_, hui, hut⟩
      rw [List.mem_map]
      exact ⟨w, hw, by rw [if_pos (by simpa using hwid)]⟩
    · refine ⟨w, ?_, hwi, hwt⟩
      rw [List.mem_map]
      exact ⟨w, hw, by rw [if_neg (by simpa using hwid)]⟩

namespace CatalogSyncer

theorem updateOneExisting_spec {r : Remote} {now : Int} {st : SyncState}
    {m : MediaItem} (hinv : StoreInv st) (hm : m ∈ st.items) :
    StoreInv (updateOneExisting r now st m) ∧
    (updateOneExisting r now st m).nextId = st.nextId ∧
    List.Forall₂ (PreservedJobs now) st.items (updateOneExisting r now st m).items ∧
    (∀ i τ, StableKey r i τ → HasKeyB i τ st.items →
      HasKeyB i τ (updateOneExisting r now st m).items) ∧
    (∀ m' ∈ st.items, m'.id ≠ m.id → m' ∈ (updateOneExisting r now st m).items) := by
  unfold updateOneExisting
  cases hfe : TMDBService.fetchDetails r m.type m.tmdbId with
  | none =>
    refine ⟨hinv, rfl, List.forall₂_same.2 (fun x _ => preservedJobs_refl now x), ?_, ?_⟩
    · intro i τ _ h
      exact h
    · intro m' hm' _
      exact hm'
  | some d =>
    refine ⟨findByIdAndUpdate_inv hinv rfl, findByIdAndUpdate_nextId _ _ _, ?_, ?_, ?_⟩
    · refine findByIdAndUpdate_forall₂ (fun x _ => preservedJobs_refl now x) ?_
      intro x hx hxid
      have hxm : x = m := eq_of_mem_of_id_eq hinv.2.1 hx hm hxid
      subst hxm
      exact ⟨rfl, rfl, rfl, rfl, Or.inr ⟨rfl, rfl, rfl, rfl⟩⟩
    · intro i τ hstb hk
      refine findByIdAndUpdate_hasKey ?_ hk
      intro w hw hwid hwi hwt
      have hwm : w = m := eq_of_mem_of_id_eq hinv.2.1 hw hm hwid
      subst hwm
      subst hwi
      subst hwt
      obtain ⟨hdi, hdt⟩ := hstb d hfe
      exact ⟨hdi, hdt⟩
    · intro m' hm' hne
      exact findByIdAndUpdate_mem_of_ne hm' hne

theorem updateFold_spec {r : Remote} {now : Int} :
    ∀ (ms : List MediaItem) (st : SyncState), StoreInv st →
      (∀ m ∈ ms, m ∈ st.items) → ms.Pairwise (fun a b => a.id ≠ b.id) →
      StoreInv (ms.foldl (updateOneExisting r now) st) ∧
      (ms.foldl (updateOneExisting r now) st).nextId = st.nextId ∧
      List.Forall₂ (PreservedJobs now) st.items
        (ms.foldl (updateOneExisting r now) st).items ∧
      (∀ i τ, StableKey r i τ → HasKeyB i τ st.items →
        HasKeyB i τ (ms.foldl (updateOneExisting r now) st).items) := by
  intro ms
  induction ms with
  | nil =>
    intro st hinv _ _
    exact ⟨hinv, rfl, List.forall₂_same.2 (fun x _ => preservedJobs_refl now x),
      fun i τ _ h => h⟩
  | cons m ms ih =>
    intro st hinv hmem hpw
    rw [List.foldl_cons]
    obtain ⟨hinv1, hnx1, hf1, hk1, hmem1⟩ :=
      updateOneExisting_spec hinv (hmem m (List.mem_cons_self _ _))
    have hhead : ∀ b ∈ ms, m.id ≠ b.id := (List.pairwise_cons.1 hpw).1
    have hmem2 : ∀ m' ∈ ms, m' ∈ (updateOneExisting r now st m).items := by
      intro m' hm'
      exact hmem1 m' (hmem m' (List.mem_cons_of_mem _ hm'))
        (Ne.symm (hhead m' hm'))
    obtain ⟨hinv2, hnx2, hf2, hk2⟩ :=
      ih (updateOneExisting r now st m) hinv1 hmem2 (List.pairwise_cons.1 hpw).2
    refine ⟨hinv2, hnx2.trans hnx1,
      forall₂_trans_of (preservedJobs_trans now) hf1 hf2, ?_⟩
    intro i τ hstb hk
    exact hk2 i τ hstb (hk1 i τ hstb hk)

theorem updateExistingContent_spec {r : Remote} {now : Int} {st : SyncState}
    (hinv : StoreInv st) :
    StoreInv (updateExistingContent r now st) ∧
    (updateExistingContent r now st).nextId = st.nextId ∧
    List.Forall₂ (PreservedJobs now) st.items (updateExistingContent r now st).items ∧
    (∀ i τ, StableKey r i τ → HasKeyB i τ st.items →
      HasKeyB i τ (updateExistingContent r now st).items) := by
  unfold updateExistingContent
  apply updateFold_spec _ st hinv
  · intro m hm
    exact List.mem_of_mem_filter (List.mem_of_mem_take hm)
  · exact hinv.2.1.sublist ((List.take_sublist _ _).trans (List.filter_sublist _))

end CatalogSyncer

namespace ContentAggregator

theorem aggUpdateOne_spec {r : Remote} {now : Int} {st : SyncState}
    {m : MediaItem} (hinv : StoreInv st) (hm : m ∈ st.items) :
    StoreInv (aggUpdateOne r now st m) ∧
    List.Forall₂ (PreservedAgg now) st.items (aggUpdateOne r now st m).items ∧
    (∀ m' ∈ st.items, m'.id ≠ m.id → m' ∈ (aggUpdateOne r now st m).items) := by
  unfold aggUpdateOne
  cases hmt : m.type with
  | anime =>
    exact ⟨hinv, List.forall₂_same.2 (fun x _ => preservedAgg_refl now x),
      fun m' hm' _ => hm'⟩
  | movie =>
    cases hfe : r.aggMovieDetail m.tmdbId with
    | none =>
      exact ⟨hinv, List.forall₂_same.2 (fun x _ => preservedAgg_refl now x),
        fun m' hm' _ => hm'⟩
    | some d =>
      refine ⟨findByIdAndUpdate_inv hinv rfl, ?_, ?_⟩
      · refine findByIdAndUpdate_forall₂ (fun x _ => preservedAgg_refl now x) ?_
        intro x hx hxid
        have hxm : x = m := eq_of_mem_of_id_eq hinv.2.1 hx hm hxid
        subst hxm
        exact ⟨rfl, rfl, rfl, rfl, rfl, rfl, Or.inr ⟨rfl, rfl⟩⟩
      · intro m' hm' hne
        exact findByIdAndUpdate_mem_of_ne hm' hne
  | series =>
    cases hfe : r.aggTVDetail m.tmdbId with
    | none =>
      exact ⟨hinv, List.forall₂_same.2 (fun x _ => preservedAgg_refl now x),
        fun m' hm' _ => hm'⟩
    | some d =>
      refine ⟨findByIdAndUpdate_inv hinv rfl, ?_, ?_⟩
      · refine findByIdAndUpdate_forall₂ (fun x _ => preservedAgg_refl now x) ?_
        intro x hx hxid
        have hxm : x = m := eq_of_mem_of_id_eq hinv.2.1 hx hm hxid
        subst hxm
        exact ⟨rfl, rfl, rfl, rfl, rfl, rfl, Or.inr ⟨rfl, rfl⟩⟩
      · intro m' hm' hne
        exact findByIdAndUpdate_mem_of_ne hm' hne

theorem aggFold_spec {r : Remote} {now : Int} :
    ∀ (ms : List MediaItem) (st : SyncState), StoreInv st →
      (∀ m ∈ ms, m ∈ st.items) → ms.Pairwise (fun a b => a.id ≠ b.id) →
      StoreInv (ms.foldl (aggUpdateOne r now) st) ∧
      List.Forall₂ (PreservedAgg now) st.items
        (ms.foldl (aggUpdateOne r now) st).items := by
  intro ms
  induction ms with
  | nil =>
    intro st hinv _ _
    exact ⟨hinv, List.forall₂_same.2 (fun x _ => preservedAgg_refl now x)⟩
  | cons m ms ih =>
    intro st hinv hmem hpw
    rw [List.foldl_cons]
    obtain ⟨hinv1, hf1, hmem1⟩ := aggUpdateOne_spec hinv (hmem m (List.mem_cons_self _ _))
    have hhead : ∀ b ∈ ms, m.id ≠ b.id := (List.pairwise_cons.1 hpw).1
    have hmem2 : ∀ m' ∈ ms, m' ∈ (aggUpdateOne r now st m).items := by
      intro m' hm'
      exact hmem1 m' (hmem m' (List.mem_cons_of_mem _ hm')) (Ne.symm (hhead m' hm'))
    obtain ⟨hinv2, hf2⟩ :=
      ih (aggUpdateOne r now st m) hinv1 hmem2 (List.pairwise_cons.1 hpw).2
    exact ⟨hinv2, forall₂_trans_of (preservedAgg_trans now) hf1 hf2⟩

theorem updateExistingContent_agg_spec {r : Remote} {now : Int} {st : SyncState}
    (hinv : StoreInv st) :
    StoreInv (updateExistingContent r now st) ∧
    List.Forall₂ (PreservedAgg now) st.items (updateExistingContent r now st).items := by
  unfold updateExistingContent
  apply aggFold_spec _ st hinv
  · intro m hm
    exact List.mem_of_mem_filter (List.mem_of_mem_take hm)
  · exact hinv.2.1.sublist ((List.take_sublist _ _).trans (List.filter_sublist _))

end ContentAggregator

namespace CatalogSyncer

open TMDBService

theorem processOneItem_mem {r : Remote} {now : Int} {t : MediaType}
    {st : SyncState} {x : Summary} {m' : MediaItem} (h : m' ∈ st.items) :
    m' ∈ (processOneItem r now t st x).1.items := by
  rcases processOneItem_spec r now t st x with
    ⟨m, _, he⟩ | ⟨_, _, he⟩ | ⟨d, _, _, _, he⟩ | ⟨d, _, _, _, he⟩ <;> rw [he]
  · exact h
  · exact h
  · exact h
  · exact List.mem_append_left _ h

theorem processBatch_mem {r : Remote} {now : Int} {t : MediaType}
    {xs : List Summary} {st : SyncState} {m' : MediaItem} (h : m' ∈ st.items) :
    m' ∈ (processBatch r now t xs st).1.items := by
  induction xs generalizing st with
  | nil => rw [processBatch_nil]; exact h
  | cons x xs ih =>
    rw [processBatch_cons]
    exact ih (processOneItem_mem h)

theorem processOneItem_trending_false {r : Remote} {now : Int} {t : MediaType}
    {st : SyncState} {x : Summary}
    (h : ∀ y ∈ st.items, y.trending = false) :
    ∀ y ∈ (processOneItem r now t st x).1.items, y.trending = false := by
  rcases processOneItem_spec r now t st x with
    ⟨m, _, he⟩ | ⟨_, _, he⟩ | ⟨d, _, _, _, he⟩ | ⟨d, _, _, _, he⟩ <;> rw [he]
  · exact h
  · exact h
  · exact h
  · intro y hy
    rw [List.mem_append, List.mem_singleton] at hy
    rcases hy with hy | hy
    · exact h y hy
    · subst hy
      rfl

theorem processBatch_trending_false {r : Remote} {now : Int} {t : MediaType}
    {xs : List Summary} {st : SyncState}
    (h : ∀ y ∈ st.items, y.trending = false) :
    ∀ y ∈ (processBatch r now t xs st).1.items, y.trending = false := by
  induction xs generalizing st with
  | nil => rw [processBatch_nil]; exact h
  | cons x xs ih =>
    rw [processBatch_cons]
    exact ih (processOneItem_trending_false h)

theorem processOneItem_active {r : Remote} {now : Int} {t : MediaType}
    {st : SyncState} {x : Summary} {P : MediaItem → Prop}
    (hP : ∀ (d : Detail) (i : Nat), P { convertTMDBToMediaFormat d now with id := i })
    (h : ∀ y ∈ st.items, P y) :
    ∀ y ∈ (processOneItem r now t st x).1.items, P y := by
  rcases processOneItem_spec r now t st x with
    ⟨m, _, he⟩ | ⟨_, _, he⟩ | ⟨d, _, _, _, he⟩ | ⟨d, _, _, _, he⟩ <;> rw [he]
  · exact h
  · exact h
  · exact h
  · intro y hy
    rw [List.mem_append, List.mem_singleton] at hy
    rcases hy with hy | hy
    · exact h y hy
    · subst hy
      exact hP d st.nextId

end CatalogSyncer

namespace CatalogSyncer

open TMDBService

theorem collectTrending_nil (r : Remote) (now : Int) (st : SyncState) (ids : List Nat) :
    collectTrending r now [] st ids = (st, ids) := rfl

theorem collectTrending_cons_found {r : Remote} {now : Int} {x : Summary}
    {xs : List Summary} {st : SyncState} {ids : List Nat} {m : MediaItem}
    (hf : findByTmdbId x.tmdbId x.type st.items = some m) :
    collectTrending r now (x :: xs) st ids
      = collectTrending r now xs st (ids ++ [m.id]) := by
  rw [collectTrending.eq_def]
  simp only [hf]

theorem collectTrending_cons_ins {r : Remote} {now : Int} {x : Summary}
    {xs : List Summary} {st : SyncState} {ids : List Nat} {nm : MediaItem}
    (hf : findByTmdbId x.tmdbId x.type st.items = none)
    (hp : 0 < (processBatch r now x.type [x] st).2)
    (hnf : findByTmdbId x.tmdbId x.type (processBatch r now x.type [x] st).1.items
      = some nm) :
    collectTrending r now (x :: xs) st ids
      = collectTrending r now xs (processBatch r now x.type [x] st).1 (ids ++ [nm.id]) := by
  rw [collectTrending.eq_def]
  simp only [hf, hp, hnf, if_true]

theorem collectTrending_cons_skip {r : Remote} {now : Int} {x : Summary}
    {xs : List Summary} {st : SyncState} {ids : List Nat}
    (hf : findByTmdbId x.tmdbId x.type st.items = none)
    (h : (0 < (processBatch r now x.type [x] st).2 →
      findByTmdbId x.tmdbId x.type (processBatch r now x.type [x] st).1.items = none)) :
    collectTrending r now (x :: xs) st ids
      = collectTrending r now xs (processBatch r now x.type [x] st).1 ids := by
  rw [collectTrending.eq_def]
  by_cases hp : 0 < (processBatch r now x.type [x] st).2
  · simp only [hf, hp, h hp, if_true]
  · simp only [hf, hp, if_false]

theorem collectTrending_mem {r : Remote} {now : Int} :
    ∀ {xs : List Summary} {st : SyncState} {ids : List Nat} {m' : MediaItem},
      m' ∈ st.items → m' ∈ (collectTrending r now xs st ids).1.items := by
  intro xs
  induction xs with
  | nil => intro st ids m' h; exact h
  | cons x xs ih =>
    intro st ids m' h
    cases hf : findByTmdbId x.tmdbId x.type st.items with
    | some m =>
      rw [collectTrending_cons_found hf]
      exact ih h
    | none =>
      by_cases hp : 0 < (processBatch r now x.type [x] st).2
      · cases hnf : findByTmdbId x.tmdbId x.type (processBatch r now x.type [x] st).1.items with
        | some nm =>
          rw [collectTrending_cons_ins hf hp hnf]
          exact ih (processBatch_mem h)
        | none =>
          rw [collectTrending_cons_skip hf (fun _ => hnf)]
          exact ih (processBatch_mem h)
      · rw [collectTrending_cons_skip hf (fun hc => absurd hc hp)]
        exact ih (processBatch_mem h)

theorem collectTrending_inv {r : Remote} {now : Int} :
    ∀ {xs : List Summary} {st : SyncState} {ids : List Nat},
      StoreInv st → StoreInv (collectTrending r now xs st ids).1 := by
  intro xs
  induction xs with
  | nil => intro st ids h; exact h
  | cons x xs ih =>
    intro st ids h
    cases hf : findByTmdbId x.tmdbId x.type st.items with
    | some m =>
      rw [collectTrending_cons_found hf]
      exact ih h
    | none =>
      by_cases hp : 0 < (processBatch r now x.type [x] st).2
      · cases hnf : findByTmdbId x.tmdbId x.type (processBatch r now x.type [x] st).1.items with
        | some nm =>
          rw [collectTrending_cons_ins hf hp hnf]
          exact ih (processBatch_inv h)
        | none =>
          rw [collectTrending_cons_skip hf (fun _ => hnf)]
          exact ih (processBatch_inv h)
      · rw [collectTrending_cons_skip hf (fun hc => absurd hc hp)]
        exact ih (processBatch_inv h)

theorem collectTrending_hasKey {r : Remote} {now : Int} :
    ∀ {xs : List Summary} {st : SyncState} {ids : List Nat} {i : Nat} {τ : MediaType},
      HasKeyB i τ st.items → HasKeyB i τ (collectTrending r now xs st ids).1.items := by
  intro xs st ids i τ h
  obtain ⟨m, hm, hi, ht⟩ := h
  exact ⟨m, collectTrending_mem hm, hi, ht⟩

theorem collectTrending_trending_false {r : Remote} {now : Int} :
    ∀ {xs : List Summary} {st : SyncState} {ids : List Nat},
      (∀ y ∈ st.items, y.trending = false) →
      ∀ y ∈ (collectTrending r now xs st ids).1.items, y.trending = false := by
  intro xs
  induction xs with
  | nil => intro st ids h; exact h
  | cons x xs ih =>
    intro st ids h
    cases hf : findByTmdbId x.tmdbId x.type st.items with
    | some m =>
      rw [collectTrending_cons_found hf]
      exact ih h
    | none =>
      by_cases hp : 0 < (processBatch r now x.type [x] st).2
      · cases hnf : findByTmdbId x.tmdbId x.type (processBatch r now x.type [x] st).1.items with
        | some nm =>
          rw [collectTrending_cons_ins hf hp hnf]
          exact ih (processBatch_trending_false h)
        | none =>
          rw [collectTrending_cons_skip hf (fun _ => hnf)]
          exact ih (processBatch_trending_false h)
      · rw [collectTrending_cons_skip hf (fun hc => absurd hc hp)]
        exact ih (processBatch_trending_false h)

end CatalogSyncer

theorem covOne_map {r : Remote} {t : MediaType} {id : Nat} {l : List MediaItem}
    {g : MediaItem → MediaItem}
    (hg : ∀ x, (g x).tmdbId = x.tmdbId ∧ (g x).type = x.type)
    (h : CovOne r t id l) : CovOne r t id (l.map g) := by
  intro d hd
  exact ⟨(h d hd).1, (hasKeyB_map_iff hg).2 (h d hd).2⟩

namespace CatalogSyncer

open TMDBService

theorem collectTrending_covOne {r : Remote} {now : Int} {t' : MediaType} {id : Nat} :
    ∀ {xs : List Summary} {st : SyncState} {ids : List Nat},
      CovOne r t' id st.items → CovOne r t' id (collectTrending r now xs st ids).1.items := by
  intro xs st ids h d hd
  exact ⟨(h d hd).1, collectTrending_hasKey (h d hd).2⟩

theorem collectTrending_est {r : Remote} {now : Int} :
    ∀ {xs : List Summary} {st : SyncState} {ids : List Nat},
      (∀ x ∈ xs, AgreeOne r x.type x) →
      ∀ x ∈ xs, CovOne r x.type x.tmdbId (collectTrending r now xs st ids).1.items := by
  intro xs
  induction xs with
  | nil => intro st ids _ x hx; cases hx
  | cons y ys ih =>
    intro st ids ha x hx
    have hy : AgreeOne r y.type y := ha y (List.mem_cons_self _ _)
    have hys : ∀ z ∈ ys, AgreeOne r z.type z :=
      fun z hz => ha z (List.mem_cons_of_mem _ hz)
    cases hf : findByTmdbId y.tmdbId y.type st.items with
    | some m =>
      rw [collectTrending_cons_found hf]
      rcases List.mem_cons.1 hx with hx | hx
      · subst hx
        apply collectTrending_covOne
        intro d hd
        obtain ⟨hid, hty, hstb⟩ := hy d hd
        rw [hid, hty]
        exact ⟨hstb, findByTmdbId_isSome_hasKey hf⟩
      · exact ih hys x hx
    | none =>
      have hstep : ∀ z ∈ [y], AgreeOne r y.type z := by
        intro z hz
        rw [List.mem_singleton] at hz
        subst hz
        exact hy
      have hest := @processBatch_est r now y.type [y] st hstep y
        (List.mem_singleton.2 rfl)
      by_cases hp : 0 < (processBatch r now y.type [y] st).2
      · cases hnf : findByTmdbId y.tmdbId y.type (processBatch r now y.type [y] st).1.items with
        | some nm =>
          rw [collectTrending_cons_ins hf hp hnf]
          rcases List.mem_cons.1 hx with hx | hx
          · subst hx
            exact collectTrending_covOne hest
          · exact ih hys x hx
        | none =>
          rw [collectTrending_cons_skip hf (fun _ => hnf)]
          rcases List.mem_cons.1 hx with hx | hx
          · subst hx
            exact collectTrending_covOne hest
          · exact ih hys x hx
      · rw [collectTrending_cons_skip hf (fun hc => absurd hc hp)]
        rcases List.mem_cons.1 hx with hx | hx
        · subst hx
          exact collectTrending_covOne hest
        · exact ih hys x hx

theorem collectTrending_covered {r : Remote} {now : Int} :
    ∀ {xs : List Summary} {st : SyncState} {ids : List Nat},
      (∀ x ∈ xs, CovOne r x.type x.tmdbId st.items) →
      (collectTrending r now xs st ids).1.items = st.items ∧
        (collectTrending r now xs st ids).1.nextId = st.nextId := by
  intro xs
  induction xs with
  | nil => intro st ids _; exact ⟨rfl, rfl⟩
  | cons y ys ih =>
    intro st ids hc
    have hcy : CovOne r y.type y.tmdbId st.items := hc y (List.mem_cons_self _ _)
    have hcys : ∀ z ∈ ys, CovOne r z.type z.tmdbId st.items :=
      fun z hz => hc z (List.mem_cons_of_mem _ hz)
    cases hf : findByTmdbId y.tmdbId y.type st.items with
    | some m =>
      rw [collectTrending_cons_found hf]
      exact ih hcys
    | none =>
      obtain ⟨hit, hnx⟩ := @processBatch_covered r now y.type [y] st (by
          intro z hz
          rw [List.mem_singleton] at hz
          subst hz
          exact hcy)
      have hterm : ∀ z ∈ ys, CovOne r z.type z.tmdbId
          (processBatch r now y.type [y] st).1.items := by
        intro z hz
        rw [hit]
        exact hcys z hz
      by_cases hp : 0 < (processBatch r now y.type [y] st).2
      · cases hnf : findByTmdbId y.tmdbId y.type (processBatch r now y.type [y] st).1.items with
        | some nm =>
          rw [collectTrending_cons_ins hf hp hnf]
          obtain ⟨h1, h2⟩ := @ih (processBatch r now y.type [y] st).1 (ids ++ [nm.id]) hterm
          rw [h1, h2, hit, hnx]
          exact ⟨rfl, rfl⟩
        | none =>
          rw [collectTrending_cons_skip hf (fun _ => hnf)]
          obtain ⟨h1, h2⟩ := @ih (processBatch r now y.type [y] st).1 ids hterm
          rw [h1, h2, hit, hnx]
          exact ⟨rfl, rfl⟩
      · rw [collectTrending_cons_skip hf (fun hc' => absurd hc' hp)]
        obtain ⟨h1, h2⟩ := @ih (processBatch r now y.type [y] st).1 ids hterm
        rw [h1, h2, hit, hnx]
        exact ⟨rfl, rfl⟩

end CatalogSyncer

namespace CatalogSyncer

open TMDBService

theorem trendReset_keeps (x : MediaItem) :
    ({ x with trending := false } : MediaItem).tmdbId = x.tmdbId ∧
      ({ x with trending := false } : MediaItem).type = x.type := ⟨rfl, rfl⟩

theorem trendMark_keeps (now : Int) (ids : List Nat) (x : MediaItem) :
    ((if ids.contains x.id then { x with trending := true, updatedAt := now }
      else x) : MediaItem).tmdbId = x.tmdbId ∧
    ((if ids.contains x.id then { x with trending := true, updatedAt := now }
      else x) : MediaItem).type = x.type := by
  by_cases h : ids.contains x.id
  · rw [if_pos h]; exact ⟨rfl, rfl⟩
  · rw [if_neg h]; exact ⟨rfl, rfl⟩

theorem trendMark_keeps_id (now : Int) (ids : List Nat) (x : MediaItem) :
    ((if ids.contains x.id then { x with trending := true, updatedAt := now }
      else x) : MediaItem).id = x.id := by
  by_cases h : ids.contains x.id
  · rw [if_pos h]
  · rw [if_neg h]

theorem syncTrendingContent_inv {r : Remote} {now : Int} {st : SyncState}
    (h : StoreInv st) : StoreInv (syncTrendingContent r now st) := by
  unfold syncTrendingContent
  exact storeInv_map (trendMark_keeps now _) (trendMark_keeps_id now _)
    (collectTrending_inv (storeInv_map trendReset_keeps (fun _ => rfl) h))

theorem syncTrendingContent_hasKey {r : Remote} {now : Int} {st : SyncState}
    {i : Nat} {τ : MediaType} (h : HasKeyB i τ st.items) :
    HasKeyB i τ (syncTrendingContent r now st).items := by
  unfold syncTrendingContent
  refine (hasKeyB_map_iff (trendMark_keeps now _)).2 ?_
  exact collectTrending_hasKey ((hasKeyB_map_iff trendReset_keeps).2 h)

theorem syncTrendingContent_covOne {r : Remote} {now : Int} {st : SyncState}
    {t' : MediaType} {id : Nat} (h : CovOne r t' id st.items) :
    CovOne r t' id (syncTrendingContent r now st).items := by
  intro d hd
  exact ⟨(h d hd).1, syncTrendingContent_hasKey (h d hd).2⟩

theorem syncTrendingContent_est {r : Remote} {now : Int} {st : SyncState}
    (ha : ∀ x ∈ r.trendingAllWeek.take 50, AgreeOne r x.type x) :
    ∀ x ∈ r.trendingAllWeek.take 50,
      CovOne r x.type x.tmdbId (syncTrendingContent r now st).items := by
  intro x hx
  unfold syncTrendingContent
  exact covOne_map (trendMark_keeps now _) (collectTrending_est ha x hx)

theorem syncTrendingContent_len {r : Remote} {now : Int} {st : SyncState}
    (hc : ∀ x ∈ r.trendingAllWeek.take 50, CovOne r x.type x.tmdbId st.items) :
    (syncTrendingContent r now st).items.length = st.items.length ∧
      (syncTrendingContent r now st).nextId = st.nextId := by
  unfold syncTrendingContent
  have hc1 : ∀ x ∈ r.trendingAllWeek.take 50,
      CovOne r x.type x.tmdbId (st.items.map (fun m => { m with trending := false })) :=
    fun x hx => covOne_map trendReset_keeps (hc x hx)
  obtain ⟨h1, h2⟩ := @collectTrending_covered r now (r.trendingAllWeek.take 50)
    { st with items := st.items.map (fun m => { m with trending := false }) } [] hc1
  constructor
  · rw [List.length_map, h1, List.length_map]
  · exact h2

end CatalogSyncer

namespace CatalogSyncer

open TMDBService

theorem cleanup_keeps (now : Int) (x : MediaItem) :
    ((if x.isActive && x.views < 5 && decide (x.createdAt < now - oneYearMs)
          && decide (x.tmdbAverage < (5 : ℚ)) then
        { x with isActive := false, updatedAt := now } else x) : MediaItem).tmdbId = x.tmdbId ∧
    ((if x.isActive && x.views < 5 && decide (x.createdAt < now - oneYearMs)
          && decide (x.tmdbAverage < (5 : ℚ)) then
        { x with isActive := false, updatedAt := now } else x) : MediaItem).type = x.type := by
  split <;> exact ⟨rfl, rfl⟩

theorem cleanup_keeps_id (now : Int) (x : MediaItem) :
    ((if x.isActive && x.views < 5 && decide (x.createdAt < now - oneYearMs)
          && decide (x.tmdbAverage < (5 : ℚ)) then
        { x with isActive := false, updatedAt := now } else x) : MediaItem).id = x.id := by
  split <;> rfl

theorem cleanupObsoleteContent_inv {now : Int} {st : SyncState} (h : StoreInv st) :
    StoreInv (cleanupObsoleteContent now st) :=
  storeInv_map (cleanup_keeps now) (cleanup_keeps_id now) h

theorem cleanupObsoleteContent_hasKey {now : Int} {st : SyncState} {i : Nat}
    {τ : MediaType} (h : HasKeyB i τ st.items) :
    HasKeyB i τ (cleanupObsoleteContent now st).items :=
  (hasKeyB_map_iff (cleanup_keeps now)).2 h

theorem cleanupObsoleteContent_covOne {r : Remote} {now : Int} {st : SyncState}
    {t' : MediaType} {id : Nat} (h : CovOne r t' id st.items) :
    CovOne r t' id (cleanupObsoleteContent now st).items :=
  covOne_map (cleanup_keeps now) h

theorem cleanupObsoleteContent_len (now : Int) (st : SyncState) :
    (cleanupObsoleteContent now st).items.length = st.items.length ∧
      (cleanupObsoleteContent now st).nextId = st.nextId :=
  ⟨List.length_map _ _, rfl⟩

theorem syncNewReleases_inv {r : Remote} {now : Int} {st : SyncState}
    (h : StoreInv st) : StoreInv (syncNewReleases r now st) := by
  unfold syncNewReleases
  exact processBatch_inv (processBatch_inv h)

end CatalogSyncer

/-- `AgreeOne` at a summary's own classification, for listed TV-side
summaries: movie summaries dispatch to the movie detail endpoint (always
consistent); series/anime summaries agree with their TV detail by
`TvAgree`. -/
theorem agreeOne_of_listed_type {r : Remote} {t : MediaType} {x : Summary}
    (hr : RemoteOk r) (ha : TvAgree r) (hl : ListedTV r x) (hxt : x.type = t) :
    AgreeOne r t x := by
  cases t with
  | movie => exact agreeOne_movie hr x
  | series => exact agreeOne_tv hr ha hl hxt (by intro hc; cases hc)
  | anime => exact agreeOne_tv hr ha hl hxt (by intro hc; cases hc)

namespace CatalogSyncer

open TMDBService

theorem admitSeries_type {x : Summary} (h : admitSeries x = true) :
    x.type = .series := by
  rw [admitSeries, Bool.and_eq_true, beq_iff_eq] at h
  exact h.2

/-- Every batch entry of the five `fullSync` discovery strategies agrees
with its batch kind: movie batches trivially, series/anime batches because
their entries are filtered to that kind and come from a TV-side listing. -/
theorem fullSyncBatches_agree {r : Remote} (hr : RemoteOk r) (ha : TvAgree r) :
    ∀ b ∈ fullSyncBatches r, ∀ x ∈ b.2, AgreeOne r b.1 x := by
  intro b hb x hx
  unfold fullSyncBatches at hb
  rw [List.mem_append, List.mem_append, List.mem_append, List.mem_append] at hb
  rcases hb with ((((hb | hb) | hb) | hb) | hb)
  · -- popular movies
    unfold popularMoviesBatches at hb
    rw [List.mem_append, List.mem_map] at hb
    rcases hb with ⟨p, _, rfl⟩ | hb
    · exact agreeOne_movie hr x
    · rw [List.mem_cons, List.mem_singleton] at hb
      rcases hb with rfl | rfl <;> exact agreeOne_movie hr x
  · -- popular series
    unfold popularSeriesBatches at hb
    rw [List.mem_append, List.mem_map] at hb
    rcases hb with ⟨p, _, rfl⟩ | hb
    · have hmem := List.mem_filter.1 hx
      exact agreeOne_of_listed_type hr ha (Or.inl ⟨p + 1, hmem.1⟩)
        (admitSeries_type hmem.2)
    · rw [List.mem_singleton] at hb
      subst hb
      have hmem := List.mem_filter.1 (List.mem_of_mem_take hx)
      exact agreeOne_of_listed_type hr ha (Or.inr (Or.inl hmem.1))
        (by simpa using hmem.2)
  · -- popular animes
    unfold popularAnimesBatches at hb
    rw [List.mem_cons, List.mem_singleton] at hb
    rcases hb with rfl | rfl
    · have hmem := List.mem_filter.1 (List.mem_of_mem_take hx)
      exact agreeOne_of_listed_type hr ha
        (Or.inr (Or.inr (Or.inr (Or.inr (Or.inl hmem.1))))) (by simpa using hmem.2)
    · have hmem := List.mem_filter.1 (List.mem_of_mem_take hx)
      exact agreeOne_of_listed_type hr ha
        (Or.inr (Or.inr (Or.inr (Or.inr (Or.inr (Or.inl hmem.1)))))) (by simpa using hmem.2)
  · -- priority genres
    unfold byGenresBatches at hb
    rw [List.mem_append, List.mem_map, List.mem_map] at hb
    rcases hb with ⟨g, _, rfl⟩ | ⟨g, _, rfl⟩
    · exact agreeOne_movie hr x
    · have hmem := List.mem_filter.1 hx
      exact agreeOne_of_listed_type hr ha
        (Or.inr (Or.inr (Or.inl ⟨g, List.mem_of_mem_take hmem.1⟩)))
        (admitSeries_type hmem.2)
  · -- Brazilian content
    unfold brazilianBatches at hb
    rw [List.mem_cons, List.mem_singleton] at hb
    rcases hb with rfl | rfl
    · exact agreeOne_movie hr x
    · have hmem := List.mem_filter.1 (List.mem_of_mem_take hx)
      exact agreeOne_of_listed_type hr ha
        (Or.inr (Or.inr (Or.inr (Or.inl hmem.1)))) (by simpa using hmem.2)

theorem trendingEntries_agree {r : Remote} (hr : RemoteOk r) (ha : TvAgree r) :
    ∀ x ∈ r.trendingAllWeek.take 50, AgreeOne r x.type x := by
  intro x hx
  exact agreeOne_of_listed_type hr ha
    (Or.inr (Or.inr (Or.inr (Or.inr (Or.inr (Or.inr (List.mem_of_mem_take hx))))))) rfl

end CatalogSyncer

namespace CatalogSyncer

theorem updateExistingContent_covOne {r : Remote} {now : Int} {st : SyncState}
    {t' : MediaType} {id : Nat} (hinv : StoreInv st) (h : CovOne r t' id st.items) :
    CovOne r t' id (updateExistingContent r now st).items := by
  intro d hd
  obtain ⟨hstb, hkey⟩ := h d hd
  exact ⟨hstb, (updateExistingContent_spec hinv).2.2.2 d.tmdbId d.type hstb hkey⟩

/-- `fullSync` in normal form: the five discovery strategies flattened into
one batch run, followed by the trending, update and cleanup phases. -/
theorem fullSync_eq (r : Remote) (now : Int) (st : SyncState) :
    fullSync r now st
      = cleanupObsoleteContent now (updateExistingContent r now
          (syncTrendingContent r now (runBatches r now (fullSyncBatches r) st))) := by
  show cleanupObsoleteContent now (updateExistingContent r now (syncTrendingContent r now
    (syncBrazilianContent r now (syncByGenres r now (syncPopularAnimes r now
      (syncPopularSeries r now (syncPopularMovies r now st))))))) = _
  rw [strategies_eq_runBatches]

theorem fullSync_inv {r : Remote} {now : Int} {st : SyncState}
    (hinv : StoreInv st) : StoreInv (fullSync r now st) := by
  rw [fullSync_eq]
  exact cleanupObsoleteContent_inv
    ((updateExistingContent_spec (syncTrendingContent_inv (runBatches_inv hinv))).1)

/-- A first `fullSync` run leaves every batch entry of a repeat run covered:
its fetch either fails or hits a stable key already in the store. -/
theorem fullSync_est {r : Remote} {now : Int} {st : SyncState}
    (hinv : StoreInv st) (hr : RemoteOk r) (ha : TvAgree r) :
    FullCoverage r (fullSync r now st).items := by
  rw [fullSync_eq]
  have hinv1 : StoreInv (runBatches r now (fullSyncBatches r) st) := runBatches_inv hinv
  have hc1 : ∀ b ∈ fullSyncBatches r, ∀ x ∈ b.2,
      CovOne r b.1 x.tmdbId (runBatches r now (fullSyncBatches r) st).items :=
    runBatches_est (fullSyncBatches_agree hr ha)
  have hinv2 : StoreInv (syncTrendingContent r now (runBatches r now (fullSyncBatches r) st)) :=
    syncTrendingContent_inv hinv1
  have hc2a : ∀ b ∈ fullSyncBatches r, ∀ x ∈ b.2, CovOne r b.1 x.tmdbId
      (syncTrendingContent r now (runBatches r now (fullSyncBatches r) st)).items :=
    fun b hb x hx => syncTrendingContent_covOne (hc1 b hb x hx)
  have hc2b : ∀ x ∈ r.trendingAllWeek.take 50, CovOne r x.type x.tmdbId
      (syncTrendingContent r now (runBatches r now (fullSyncBatches r) st)).items :=
    syncTrendingContent_est (trendingEntries_agree hr ha)
  exact ⟨fun b hb x hx => cleanupObsoleteContent_covOne
      (updateExistingContent_covOne hinv2 (hc2a b hb x hx)),
    fun x hx => cleanupObsoleteContent_covOne
      (updateExistingContent_covOne hinv2 (hc2b x hx))⟩

/-- Under full coverage a `fullSync` run changes no item count: no phase
inserts. -/
theorem fullSync_nogrow {r : Remote} {now : Int} {st : SyncState}
    (hinv : StoreInv st) (hc : FullCoverage r st.items) :
    (fullSync r now st).items.length = st.items.length := by
  rw [fullSync_eq]
  obtain ⟨hit1, hnx1⟩ := @runBatches_covered r now (fullSyncBatches r) st hc.1
  have hinv1 : StoreInv (runBatches r now (fullSyncBatches r) st) := runBatches_inv hinv
  have hc1b : ∀ x ∈ r.trendingAllWeek.take 50, CovOne r x.type x.tmdbId
      (runBatches r now (fullSyncBatches r) st).items := by
    rw [hit1]
    exact hc.2
  obtain ⟨hlen2, _⟩ := syncTrendingContent_len hc1b
  have hinv2 : StoreInv (syncTrendingContent r now (runBatches r now (fullSyncBatches r) st)) :=
    syncTrendingContent_inv hinv1
  have hlen3 := List.Forall₂.length_eq
    (@updateExistingContent_spec r now (syncTrendingContent r now (runBatches r now (fullSyncBatches r) st)) hinv2).2.2.1
  rw [(cleanupObsoleteContent_len now _).1, ← hlen3, hlen2, hit1]

end CatalogSyncer

/-! ### Helper lemmas shared by the claim theorems -/

theorem storeInv_insert {st : SyncState} {doc : MediaItem}
    (h : StoreInv st) (hk : ¬ HasKeyB doc.tmdbId doc.type st.items) :
    StoreInv { st with
      items := st.items ++ [{ doc with id := st.nextId }]
      nextId := st.nextId + 1 } := by
  obtain ⟨hkeys, hids, hb⟩ := h
  refine ⟨?_, ?_, ?_⟩
  · rw [KeysUniq, List.pairwise_append]
    refine ⟨hkeys, List.pairwise_singleton _ _, ?_⟩
    intro a ha b hbmem
    rw [List.mem_singleton] at hbmem
    subst hbmem
    by_contra hcon
    push_neg at hcon
    exact hk ⟨a, ha, hcon.1, hcon.2⟩
  · rw [IdsUniq, List.pairwise_append]
    refine ⟨hids, List.pairwise_singleton _ _, ?_⟩
    intro a ha b hbmem
    rw [List.mem_singleton] at hbmem
    subst hbmem
    exact Nat.ne_of_lt (hb a ha)
  · intro m hm
    rw [List.mem_append, List.mem_singleton] at hm
    rcases hm with hm | hm
    · exact Nat.lt_trans (hb m hm) (Nat.lt_succ_self _)
    · subst hm
      exact Nat.lt_succ_self _

theorem processAndSaveMovie_inv {r : Remote} {now : Int} {st : SyncState} {tid : Nat}
    (h : StoreInv st) : StoreInv (ContentAggregator.processAndSaveMovie r now st tid) := by
  unfold ContentAggregator.processAndSaveMovie
  split
  · exact h
  · split
    · exact h
    · next d hd =>
      show StoreInv (if hasKey (ContentAggregator.convertMovieToMediaFormat d now).tmdbId
          (ContentAggregator.convertMovieToMediaFormat d now).type st.items = true then st
        else { st with
          items := st.items
            ++ [{ ContentAggregator.convertMovieToMediaFormat d now with id := st.nextId }]
          nextId := st.nextId + 1 })
      split
      · exact h
      · next hk =>
        exact storeInv_insert h (fun hb => hk (hasKey_iff.2 hb))

theorem scriptsMark_keeps (c : MediaItem → Bool) (now : Int) (x : MediaItem) :
    ((if c x then { x with trending := true, updatedAt := now } else x) : MediaItem).tmdbId
        = x.tmdbId ∧
    ((if c x then { x with trending := true, updatedAt := now } else x) : MediaItem).type
        = x.type := by
  split <;> exact ⟨rfl, rfl⟩

theorem scriptsMark_keeps_id (c : MediaItem → Bool) (now : Int) (x : MediaItem) :
    ((if c x then { x with trending := true, updatedAt := now } else x) : MediaItem).id
        = x.id := by
  split <;> rfl

theorem scriptsCleanup_keeps (now : Int) (x : MediaItem) :
    ((if x.isActive && x.views < 10 && decide (x.createdAt < now - CatalogSyncer.oneYearMs)
          && decide (ScriptsSyncer.ratingBson x = ScriptsSyncer.scriptsRatingQueryLiteral) then
        { x with isActive := false, updatedAt := now } else x) : MediaItem).tmdbId = x.tmdbId ∧
    ((if x.isActive && x.views < 10 && decide (x.createdAt < now - CatalogSyncer.oneYearMs)
          && decide (ScriptsSyncer.ratingBson x = ScriptsSyncer.scriptsRatingQueryLiteral) then
        { x with isActive := false, updatedAt := now } else x) : MediaItem).type = x.type := by
  split <;> exact ⟨rfl, rfl⟩

theorem scriptsCleanup_keeps_id (now : Int) (x : MediaItem) :
    ((if x.isActive && x.views < 10 && decide (x.createdAt < now - CatalogSyncer.oneYearMs)
          && decide (ScriptsSyncer.ratingBson x = ScriptsSyncer.scriptsRatingQueryLiteral) then
        { x with isActive := false, updatedAt := now } else x) : MediaItem).id = x.id := by
  split <;> rfl

theorem scriptsCleanup_inv {now : Int} {st : SyncState} (h : StoreInv st) :
    StoreInv (ScriptsSyncer.cleanupObsoleteContent now st) :=
  storeInv_map (scriptsCleanup_keeps now) (scriptsCleanup_keeps_id now) h

theorem scriptsTrending_inv {r : Remote} {now : Int} {st : SyncState} (h : StoreInv st) :
    StoreInv (ScriptsSyncer.syncTrendingContent r now st) := by
  unfold ScriptsSyncer.syncTrendingContent
  exact storeInv_map (scriptsMark_keeps _ now) (scriptsMark_keeps_id _ now)
    (storeInv_map (scriptsMark_keeps _ now) (scriptsMark_keeps_id _ now)
      (storeInv_map CatalogSyncer.trendReset_keeps (fun _ => rfl) h))

theorem scriptsTrending_len (r : Remote) (now : Int) (st : SyncState) :
    (ScriptsSyncer.syncTrendingContent r now st).items.length = st.items.length := by
  simp [ScriptsSyncer.syncTrendingContent]

theorem sampleRemote_ok : RemoteOk sampleRemote := by
  constructor
  · intro id c h
    have h2 : (if id = 550 then some sampleMovieCore else none) = some c := h
    by_cases hid : id = 550
    · rw [if_pos hid] at h2
      injection h2 with h3
      subst h3
      rw [hid]
      rfl
    · rw [if_neg hid] at h2
      cases h2
  · intro id c h
    exact Option.noConfusion h

theorem sampleRemote_tvAgree : TvAgree sampleRemote := by
  intro s _ _ d hd
  exact Option.noConfusion hd

namespace CatalogSyncer

open TMDBService

theorem collectTrending_ids_spec {r : Remote} {now : Int} :
    ∀ {xs : List Summary} {st : SyncState} {ids : List Nat},
      ∀ i ∈ (collectTrending r now xs st ids).2, i ∈ ids ∨
        ∃ x ∈ xs, ∃ m ∈ (collectTrending r now xs st ids).1.items,
          m.id = i ∧ m.tmdbId = x.tmdbId ∧ m.type = x.type := by
  intro xs
  induction xs with
  | nil =>
    intro st ids i hi
    exact Or.inl hi
  | cons x xs ih =>
    intro st ids i hi
    cases hf : findByTmdbId x.tmdbId x.type st.items with
    | some m =>
      rw [collectTrending_cons_found hf] at hi ⊢
      rcases ih i hi with hin | ⟨x', hx', m', hm', h1, h2, h3⟩
      · rw [List.mem_append] at hin
        rcases hin with hin | hin
        · exact Or.inl hin
        · rw [List.mem_singleton] at hin
          subst hin
          obtain ⟨hmm, hmi, hmt, _⟩ := findByTmdbId_eq_some hf
          exact Or.inr ⟨x, List.mem_cons_self _ _, m, collectTrending_mem hmm, rfl, hmi, hmt⟩
      · exact Or.inr ⟨x', List.mem_cons_of_mem _ hx', m', hm', h1, h2, h3⟩
    | none =>
      by_cases hp : 0 < (processBatch r now x.type [x] st).2
      · cases hnf : findByTmdbId x.tmdbId x.type (processBatch r now x.type [x] st).1.items with
        | some nm =>
          rw [collectTrending_cons_ins hf hp hnf] at hi ⊢
          rcases ih i hi with hin | ⟨x', hx', m', hm', h1, h2, h3⟩
          · rw [List.mem_append] at hin
            rcases hin with hin | hin
            · exact Or.inl hin
            · rw [List.mem_singleton] at hin
              subst hin
              obtain ⟨hmm, hmi, hmt, _⟩ := findByTmdbId_eq_some hnf
              exact Or.inr ⟨x, List.mem_cons_self _ _, nm, collectTrending_mem hmm, rfl, hmi, hmt⟩
          · exact Or.inr ⟨x', List.mem_cons_of_mem _ hx', m', hm', h1, h2, h3⟩
        | none =>
          rw [collectTrending_cons_skip hf (fun _ => hnf)] at hi ⊢
          rcases ih i hi with hin | ⟨x', hx', m', hm', h1, h2, h3⟩
          · exact Or.inl hin
          · exact Or.inr ⟨x', List.mem_cons_of_mem _ hx', m', hm', h1, h2, h3⟩
      · rw [collectTrending_cons_skip hf (fun hc => absurd hc hp)] at hi ⊢
        rcases ih i hi with hin | ⟨x', hx', m', hm', h1, h2, h3⟩
        · exact Or.inl hin
        · exact Or.inr ⟨x', List.mem_cons_of_mem _ hx', m', hm', h1, h2, h3⟩

end CatalogSyncer

namespace TMDBService

theorem processQueue_head (requestDelay : Int) (qs : List QueuedRequest) (t : Int) :
    (processQueue requestDelay qs t).head? = qs.head?.map (fun q => (q.reqId, t)) := by
  cases qs <;> rfl

theorem processQueue_fifo (requestDelay : Int) :
    ∀ (qs : List QueuedRequest) (t : Int),
      (processQueue requestDelay qs t).map Prod.fst = qs.map QueuedRequest.reqId := by
  intro qs
  induction qs with
  | nil =>
    intro t
    rfl
  | cons q qs ih =>
    intro t
    simp only [processQueue, List.map_cons]
    rw [ih]

theorem processQueue_gaps (requestDelay : Int) :
    ∀ (qs : List QueuedRequest) (t : Int), (∀ q ∈ qs, 0 ≤ q.duration) →
      List.Chain' (fun a b : Nat × Int => a.2 + requestDelay ≤ b.2)
        (processQueue requestDelay qs t) := by
  intro qs
  induction qs with
  | nil =>
    intro t _
    exact List.chain'_nil
  | cons q qs ih =>
    intro t hd
    simp only [processQueue]
    refine List.chain'_cons'.2 ⟨?_, ih _ (fun x hx => hd x (List.mem_cons_of_mem _ hx))⟩
    intro y hy
    cases qs with
    | nil => cases hy
    | cons p ps =>
      simp only [processQueue, List.isEmpty_cons, Bool.false_eq_true, if_false,
        List.head?_cons, Option.mem_def, Option.some.injEq] at hy
      subst hy
      have hq : 0 ≤ q.duration := hd q (List.mem_cons_self _ _)
      show t + requestDelay ≤ t + q.duration + requestDelay
      omega

theorem cacheGet_none_mono {c : ResponseCache} {key : String} {t1 t2 : Int}
    (h : cacheGet c key t1 = none) (ht : t1 ≤ t2) : cacheGet c key t2 = none := by
  unfold cacheGet at h ⊢
  cases hf : c.entries.find? (fun e => e.1 == key) with
  | none => rfl
  | some e =>
    rw [hf] at h
    have h2 : (if t1 < e.2.2 then some e.2.1 else none) = none := h
    show (if t2 < e.2.2 then some e.2.1 else none) = none
    by_cases hlt : t1 < e.2.2
    · rw [if_pos hlt] at h2
      cases h2
    · rw [if_neg (by omega)]

theorem cacheGet_after_set {c : ResponseCache} {key data : String} {e t : Int}
    (h : t < e) : cacheGet (cacheSet c key data e) key t = some data := by
  unfold cacheGet cacheSet
  rw [List.find?_cons_of_pos _ (by simp)]
  show (if t < e then some data else none) = some data
  rw [if_pos h]

end TMDBService

namespace CatalogSyncer

open TMDBService

theorem collectTrending_ids_mono {r : Remote} {now : Int} :
    ∀ {xs : List Summary} {st : SyncState} {ids : List Nat} {i : Nat},
      i ∈ ids → i ∈ (collectTrending r now xs st ids).2 := by
  intro xs
  induction xs with
  | nil =>
    intro st ids i hi
    exact hi
  | cons x xs ih =>
    intro st ids i hi
    cases hf : findByTmdbId x.tmdbId x.type st.items with
    | some m =>
      rw [collectTrending_cons_found hf]
      exact ih (List.mem_append_left _ hi)
    | none =>
      by_cases hp : 0 < (processBatch r now x.type [x] st).2
      · cases hnf : findByTmdbId x.tmdbId x.type (processBatch r now x.type [x] st).1.items with
        | some nm =>
          rw [collectTrending_cons_ins hf hp hnf]
          exact ih (List.mem_append_left _ hi)
        | none =>
          rw [collectTrending_cons_skip hf (fun _ => hnf)]
          exact ih hi
      · rw [collectTrending_cons_skip hf (fun hc => absurd hc hp)]
        exact ih hi

theorem processBatch_active {r : Remote} {now : Int} {t : MediaType}
    {xs : List Summary} {st : SyncState}
    (h : ∀ m ∈ st.items, m.isActive = true) :
    ∀ m ∈ (processBatch r now t xs st).1.items, m.isActive = true := by
  induction xs generalizing st with
  | nil =>
    rw [processBatch_nil]
    exact h
  | cons x xs ih =>
    rw [processBatch_cons]
    exact ih (processOneItem_active (fun d i => rfl) h)

/-- Completeness of the trending collection loop over an all-active store:
every entry whose key is present, or whose detail fetch succeeds, ends with
a document carrying its key in the store and its Mongo id among the
collected ids (so the final pass flags it). -/
theorem collectTrending_complete {r : Remote} {now : Int} :
    ∀ {xs : List Summary} {st : SyncState} {ids : List Nat},
      (∀ m ∈ st.items, m.isActive = true) →
      (∀ x ∈ xs, AgreeOne r x.type x) →
      ∀ x ∈ xs,
        (HasKeyB x.tmdbId x.type st.items ∨
          TMDBService.fetchDetails r x.type x.tmdbId ≠ none) →
        ∃ m ∈ (collectTrending r now xs st ids).1.items,
          m.tmdbId = x.tmdbId ∧ m.type = x.type ∧
          m.id ∈ (collectTrending r now xs st ids).2 := by
  intro xs
  induction xs with
  | nil =>
    intro st ids _ _ x hx
    cases hx
  | cons y ys ih =>
    intro st ids hact hagr x hx hcond
    rcases List.mem_cons.1 hx with rfl | hxs
    · -- the head entry itself
      cases hf : findByTmdbId x.tmdbId x.type st.items with
      | some m =>
        rw [collectTrending_cons_found hf]
        obtain ⟨hmm, hmi, hmt, _⟩ := findByTmdbId_eq_some hf
        exact ⟨m, collectTrending_mem hmm, hmi, hmt,
          collectTrending_ids_mono (List.mem_append_right _ (List.mem_singleton.2 rfl))⟩
      | none =>
        have hnk : ¬ HasKeyB x.tmdbId x.type st.items := by
          intro hkk
          obtain ⟨m, hm, hi, ht⟩ := hkk
          have hdead := (findByTmdbId_eq_none_iff.1 hf) m hm hi ht
          rw [hact m hm] at hdead
          cases hdead
        obtain ⟨d, hd⟩ : ∃ d, TMDBService.fetchDetails r x.type x.tmdbId = some d := by
          rcases hcond with hkk | hne
          · exact absurd hkk hnk
          · cases hfd : TMDBService.fetchDetails r x.type x.tmdbId with
            | none => exact absurd hfd hne
            | some d => exact ⟨d, rfl⟩
        obtain ⟨hdi, hdt, _⟩ := hagr x (List.mem_cons_self _ _) d hd
        rcases processOneItem_spec r now x.type st x with
          ⟨m2, hf2, _⟩ | ⟨_, hd2, _⟩ | ⟨d2, _, hd2, hk2, _⟩ | ⟨d2, _, hd2, hk2, he⟩
        · rw [hf] at hf2
          cases hf2
        · rw [hd] at hd2
          cases hd2
        · rw [hd] at hd2
          injection hd2 with hd2e
          subst hd2e
          rw [hdi, hdt] at hk2
          exact absurd hk2 hnk
        · rw [hd] at hd2
          injection hd2 with hd2e
          subst hd2e
          have hpb : processBatch r now x.type [x] st
              = ({ st with
                    items := st.items
                      ++ [{ convertTMDBToMediaFormat d now with id := st.nextId }]
                    nextId := st.nextId + 1
                    fetches := st.fetches + 1 }, 1) := by
            rw [processBatch_cons, he]
            rfl
          have hp : 0 < (processBatch r now x.type [x] st).2 := by
            rw [hpb]
            exact Nat.one_pos
          have hpred : (({ convertTMDBToMediaFormat d now with
              id := st.nextId } : MediaItem).tmdbId == x.tmdbId
              && ({ convertTMDBToMediaFormat d now with
                    id := st.nextId } : MediaItem).type == x.type
              && ({ convertTMDBToMediaFormat d now with
                    id := st.nextId } : MediaItem).isActive) = true := by
            show (d.tmdbId == x.tmdbId && (d.type == x.type) && true) = true
            rw [hdi, hdt]
            simp
          have hnf : findByTmdbId x.tmdbId x.type
              (processBatch r now x.type [x] st).1.items
              = some { convertTMDBToMediaFormat d now with id := st.nextId } := by
            rw [hpb]
            show (st.items
              ++ [{ convertTMDBToMediaFormat d now with id := st.nextId }]).find?
                (fun m : MediaItem => m.tmdbId == x.tmdbId && m.type == x.type && m.isActive)
              = some { convertTMDBToMediaFormat d now with id := st.nextId }
            rw [List.find?_append]
            have hfn : st.items.find?
                (fun m : MediaItem => m.tmdbId == x.tmdbId && m.type == x.type && m.isActive)
              = none := hf
            rw [hfn, @List.find?_cons_of_pos MediaItem
              (fun m : MediaItem => m.tmdbId == x.tmdbId && m.type == x.type && m.isActive)
              { convertTMDBToMediaFormat d now with id := st.nextId } [] hpred]
            rfl
          rw [collectTrending_cons_ins hf hp hnf]
          refine ⟨{ convertTMDBToMediaFormat d now with id := st.nextId },
            collectTrending_mem ?_, hdi, hdt, collectTrending_ids_mono
              (List.mem_append_right _ (List.mem_singleton.2 rfl))⟩
          rw [hpb]
          exact List.mem_append_right _ (List.mem_singleton.2 rfl)
    · -- a later entry: step once and recurse
      have hagr2 : ∀ z ∈ ys, AgreeOne r z.type z :=
        fun z hz => hagr z (List.mem_cons_of_mem _ hz)
      cases hf : findByTmdbId y.tmdbId y.type st.items with
      | some m =>
        rw [collectTrending_cons_found hf]
        exact ih hact hagr2 x hxs hcond
      | none =>
        have hact2 : ∀ m ∈ (processBatch r now y.type [y] st).1.items, m.isActive = true :=
          processBatch_active hact
        have hcond2 : HasKeyB x.tmdbId x.type (processBatch r now y.type [y] st).1.items ∨
            TMDBService.fetchDetails r x.type x.tmdbId ≠ none :=
          hcond.imp (fun hk => processBatch_hasKey hk) id
        by_cases hp : 0 < (processBatch r now y.type [y] st).2
        · cases hnf : findByTmdbId y.tmdbId y.type
              (processBatch r now y.type [y] st).1.items with
          | some nm =>
            rw [collectTrending_cons_ins hf hp hnf]
            exact ih hact2 hagr2 x hxs hcond2
          | none =>
            rw [collectTrending_cons_skip hf (fun _ => hnf)]
            exact ih hact2 hagr2 x hxs hcond2
        · rw [collectTrending_cons_skip hf (fun hc => absurd hc hp)]
          exact ih hact2 hagr2 x hxs hcond2

end CatalogSyncer

/-! ### The claims -/

/-- C1 (amended): one pass of either `updateExistingContent` preserves, for
every persisted document, its `_id`, `createdAt` and analytics counters, and
either leaves it untouched or rewrites it from the freshly fetched detail.
In the rewrite the backend pass (`PreservedJobs`) resets `rating.internal`
to zero and forces `isActive := true` — contrary to the claim — while the
aggregator pass (`PreservedAgg`) does carry `rating.internal` forward. -/
theorem c1_update_preserves_frame {r : Remote} {now : Int} {st : SyncState}
    (hinv : StoreInv st) :
    List.Forall₂ (PreservedJobs now) st.items
      (CatalogSyncer.updateExistingContent r now st).items ∧
    List.Forall₂ (PreservedAgg now) st.items
      (ContentAggregator.updateExistingContent r now st).items :=
  ⟨(CatalogSyncer.updateExistingContent_spec hinv).2.2.1,
   (ContentAggregator.updateExistingContent_agg_spec hinv).2⟩

/-- C1 (counterexample): the backend `updateExistingContent` does not
preserve `rating.internal` — the stale copy of movie 550 holds internal
rating (4.2, 10) before the pass and (0, 0) after it. -/
theorem c1_internal_reset_counterexample :
    (staleStore.items.map (fun m => (m.id, m.internalAverage, m.internalCount))
      = [(7, q42, 10)]) ∧
    ((CatalogSyncer.updateExistingContent sampleRemote 0 staleStore).items.map
      (fun m => (m.id, m.internalAverage, m.internalCount)) = [(7, 0, 0)]) := by
  decide

/-- C1 (witness): the amended frame theorem applied to the concrete stale
store. -/
theorem c1_update_frame_witness :
    StoreInv staleStore ∧
    List.Forall₂ (PreservedAgg 0) staleStore.items
      (ContentAggregator.updateExistingContent sampleRemote 0 staleStore).items :=
  ⟨by decide, (c1_update_preserves_frame (by decide)).2⟩

/-- C2 (confirmed): starting from a store holding at most one document per
`(tmdbId, type)` key (with well-formed ids), every sync operation of both
pipelines returns such a store — the natural-key uniqueness enforced by the
unique index is an invariant of `fullSync`, `syncNewReleases`,
`syncTrendingContent`, `updateExistingContent` and `cleanupObsoleteContent`,
and of the aggregator and scripts variants. -/
theorem c2_natural_key_invariant {r : Remote} {now : Int} {st : SyncState} (tid : Nat)
    (hinv : StoreInv st) :
    StoreInv (CatalogSyncer.fullSync r now st) ∧
    StoreInv (CatalogSyncer.syncNewReleases r now st) ∧
    StoreInv (CatalogSyncer.syncTrendingContent r now st) ∧
    StoreInv (CatalogSyncer.updateExistingContent r now st) ∧
    StoreInv (CatalogSyncer.cleanupObsoleteContent now st) ∧
    StoreInv (ContentAggregator.processAndSaveMovie r now st tid) ∧
    StoreInv (ContentAggregator.updateExistingContent r now st) ∧
    StoreInv (ScriptsSyncer.cleanupObsoleteContent now st) ∧
    StoreInv (ScriptsSyncer.syncTrendingContent r now st) :=
  ⟨CatalogSyncer.fullSync_inv hinv, CatalogSyncer.syncNewReleases_inv hinv,
   CatalogSyncer.syncTrendingContent_inv hinv,
   (CatalogSyncer.updateExistingContent_spec hinv).1,
   CatalogSyncer.cleanupObsoleteContent_inv hinv, processAndSaveMovie_inv hinv,
   (ContentAggregator.updateExistingContent_agg_spec hinv).1, scriptsCleanup_inv hinv,
   scriptsTrending_inv hinv⟩

/-- C2 (witness): invariant preservation at the concrete one-item store. -/
theorem c2_invariant_witness :
    StoreInv staleStore ∧ StoreInv (CatalogSyncer.fullSync sampleRemote 0 staleStore) :=
  ⟨by decide, (c2_natural_key_invariant 550 (by decide)).1⟩

/-- C4 (code bug): the backend `cleanupObsoleteContent` deactivates exactly
the items meeting all three conditions — the 4.0-rated year-old low-view
item is deactivated, the 7.0-rated one stays active — but the scripts copy
deactivates neither: its filter binds `rating` to a literal object holding
the single dotted key "tmdb.average", which MongoDB matches by exact
subdocument equality, and no schema-shaped `rating` document (three fields)
ever equals that one-field literal, so the conjunction is unsatisfiable. -/
theorem c4_cleanup_conjunction_divergence :
    ((CatalogSyncer.cleanupObsoleteContent 40000000000 oldStore).items.map
      (fun m => (m.id, m.isActive)) = [(1, false), (2, true)]) ∧
    ((ScriptsSyncer.cleanupObsoleteContent 40000000000 oldStore).items.map
      (fun m => (m.id, m.isActive)) = [(1, true), (2, true)]) ∧
    (∀ m : MediaItem, ScriptsSyncer.ratingBson m ≠ ScriptsSyncer.scriptsRatingQueryLiteral) := by
  refine ⟨by decide, by decide, ?_⟩
  intro m h
  simp [ScriptsSyncer.ratingBson, ScriptsSyncer.scriptsRatingQueryLiteral] at h

/-- C9 (amended): a newly created catalog item gets `isActive = true` and
`lastSyncAt = now` from both converters; `trending` is constantly `false` in
the backend converter but equals `popularity > 100` in the aggregator movie
converter, so a popular-enough new movie is created with `trending = true`,
contrary to the claim. -/
theorem c9_created_item_flags :
    ∀ (d : Detail) (d2 : AggDetail) (now : Int),
      (CatalogSyncer.convertTMDBToMediaFormat d now).isActive = true ∧
      (CatalogSyncer.convertTMDBToMediaFormat d now).trending = false ∧
      (CatalogSyncer.convertTMDBToMediaFormat d now).lastSyncAt = now ∧
      (ContentAggregator.convertMovieToMediaFormat d2 now).isActive = true ∧
      (ContentAggregator.convertMovieToMediaFormat d2 now).lastSyncAt = now ∧
      ((ContentAggregator.convertMovieToMediaFormat d2 now).trending = true
        ↔ 100 < d2.popularity) := by
  intro d d2 now
  refine ⟨rfl, rfl, rfl, rfl, rfl, ?_⟩
  simp [ContentAggregator.convertMovieToMediaFormat]

/-- C9 (counterexample): inserting the absent movie 550 (rating 7.5, over
the 6.0 admission bar, popularity 150) through the aggregator creates it
with `isActive = true` and `lastSyncAt = now` but `trending = true`. -/
theorem c9_agg_trending_counterexample :
    ((ContentAggregator.processAndSaveMovie sampleAggRemote 5 emptyState 550).items.map
      (fun m => (m.tmdbId, m.isActive, m.trending, m.lastSyncAt)) = [(550, true, true, 5)]) ∧
    sampleAggDetail.tmdbAverage = q75 ∧
    CatalogSyncer.admitMovie ⟨550, .movie, q75⟩ = true := by
  decide

/-- C10 (confirmed): in a key-unique store a soft-deactivated document is
invisible to `findByTmdbId`, so `processOneItem` treats its key as absent:
it issues the detail fetch, and when the fetch returns a detail carrying the
same key the insert attempt is rejected by the unique index and counted as
an error — the existing document is neither updated nor reactivated. -/
theorem c10_soft_deleted_treated_absent (r : Remote) (now : Int) {st : SyncState}
    {x : Summary} {m : MediaItem} (hm : m ∈ st.items) (hin : m.isActive = false)
    (hu : KeysUniq st.items) (hx : x.tmdbId = m.tmdbId) :
    findByTmdbId x.tmdbId m.type st.items = none ∧
    (CatalogSyncer.processOneItem r now m.type st x).1.fetches = st.fetches + 1 ∧
    (∀ d, TMDBService.fetchDetails r m.type x.tmdbId = some d → d.tmdbId = x.tmdbId →
      d.type = m.type →
      CatalogSyncer.processOneItem r now m.type st x
        = ({ st with fetches := st.fetches + 1, errors := st.errors + 1 }, false)) := by
  have hfind : findByTmdbId x.tmdbId m.type st.items = none := by
    rw [hx]
    exact findByTmdbId_eq_none_of_inactive hu hm hin
  refine ⟨hfind, ?_, ?_⟩
  · rcases CatalogSyncer.processOneItem_spec r now m.type st x with
      ⟨m2, hf2, he⟩ | ⟨_, _, he⟩ | ⟨d, _, _, _, he⟩ | ⟨d, _, _, _, he⟩
    · rw [hfind] at hf2
      cases hf2
    all_goals rw [he]
  · intro d hd hdi hdt
    have hk : hasKey (CatalogSyncer.convertTMDBToMediaFormat d now).tmdbId
        (CatalogSyncer.convertTMDBToMediaFormat d now).type st.items = true :=
      hasKey_iff.2 ⟨m, hm, (hdi.trans hx).symm, hdt.symm⟩
    unfold CatalogSyncer.processOneItem
    simp only [hfind, hd, hk, if_true]

/-- C10 (witness): the lookup misses the concrete soft-deactivated copy of
movie 550. -/
theorem c10_soft_deleted_witness :
    softDeletedItem ∈ softDeletedStore.items ∧ softDeletedItem.isActive = false ∧
    KeysUniq softDeletedStore.items ∧
    findByTmdbId 550 MediaType.movie softDeletedStore.items = none := by
  refine ⟨by decide, by decide, by decide, ?_⟩
  exact (@c10_soft_deleted_treated_absent sampleRemote 0 softDeletedStore
    ⟨550, .movie, q75⟩ softDeletedItem (by decide) (by decide) (by decide) (by decide)).1

/-- C3 (confirmed): against an unchanged remote whose detail records echo
the requested key (`RemoteOk`) and whose TV listings agree with the detail
classification (`TvAgree`), a second `fullSync` run leaves the persisted
item count unchanged and key-unique; and per-item processing skips an item
that `findByTmdbId` already finds — before any detail fetch or insert, the
state (its fetch counter included) is returned untouched. -/
theorem c3_fullSync_idempotent {r : Remote} {st : SyncState} (now now2 : Int)
    (hinv : StoreInv st) (hr : RemoteOk r) (ha : TvAgree r) :
    (CatalogSyncer.fullSync r now2 (CatalogSyncer.fullSync r now st)).items.length
      = (CatalogSyncer.fullSync r now st).items.length ∧
    KeysUniq (CatalogSyncer.fullSync r now2 (CatalogSyncer.fullSync r now st)).items ∧
    (∀ (t : MediaType) (st2 : SyncState) (x : Summary) (m : MediaItem),
      findByTmdbId x.tmdbId t st2.items = some m →
      CatalogSyncer.processOneItem r now2 t st2 x = (st2, false)) := by
  have hinv1 := @CatalogSyncer.fullSync_inv r now st hinv
  refine ⟨CatalogSyncer.fullSync_nogrow hinv1 (CatalogSyncer.fullSync_est hinv hr ha),
    (CatalogSyncer.fullSync_inv hinv1).1, ?_⟩
  intro t st2 x m hf
  unfold CatalogSyncer.processOneItem
  rw [hf]

/-- C3 (witness): a repeat `fullSync` against the concrete one-movie remote
keeps the item count of the first run. -/
theorem c3_idempotent_witness :
    RemoteOk sampleRemote ∧ TvAgree sampleRemote ∧
    (CatalogSyncer.fullSync sampleRemote 0
        (CatalogSyncer.fullSync sampleRemote 0 emptyState)).items.length
      = (CatalogSyncer.fullSync sampleRemote 0 emptyState).items.length :=
  ⟨sampleRemote_ok, sampleRemote_tvAgree,
    (c3_fullSync_idempotent 0 0 (by decide) sampleRemote_ok sampleRemote_tvAgree).1⟩

/-- C6 (confirmed): `getMovieDetails` and `getTVDetails` succeed only when
every one of their concurrent sub-fetches succeeded (all-or-nothing); and
when the whole detail fetch fails for an absent item, `processBatch` counts
one error for it, persists nothing for it, and processes the remaining batch
items from that state exactly as it would have. -/
theorem c6_partial_failure_isolation {r : Remote} {now : Int} {t : MediaType}
    {st : SyncState} {x : Summary} (xs : List Summary)
    (hmiss : findByTmdbId x.tmdbId t st.items = none)
    (hfail : TMDBService.fetchDetails r t x.tmdbId = none) :
    (∀ id d, TMDBService.fetchMovieDetail r id = some d →
      (r.movieCore id).isSome ∧ (r.movieCredits id).isSome ∧ (r.movieVideos id).isSome ∧
      (r.movieProviders id).isSome ∧ (r.movieKeywords id).isSome ∧
      (r.movieReleases id).isSome) ∧
    (∀ id d, TMDBService.fetchTVDetail r id = some d →
      (r.tvCore id).isSome ∧ (r.tvCredits id).isSome ∧ (r.tvVideos id).isSome ∧
      (r.tvProviders id).isSome ∧ (r.tvKeywords id).isSome) ∧
    CatalogSyncer.processOneItem r now t st x
      = ({ st with fetches := st.fetches + 1, errors := st.errors + 1 }, false) ∧
    CatalogSyncer.processBatch r now t (x :: xs) st
      = CatalogSyncer.processBatch r now t xs
          { st with fetches := st.fetches + 1, errors := st.errors + 1 } := by
  have hone : CatalogSyncer.processOneItem r now t st x
      = ({ st with fetches := st.fetches + 1, errors := st.errors + 1 }, false) := by
    unfold CatalogSyncer.processOneItem
    simp only [hmiss, hfail]
  refine ⟨?_, ?_, hone, ?_⟩
  · intro id d h
    unfold TMDBService.fetchMovieDetail at h
    cases h1 : r.movieCore id <;> rw [h1] at h
    · exact absurd h (by simp)
    cases h2 : r.movieCredits id <;> rw [h2] at h
    · exact absurd h (by simp)
    cases h3 : r.movieVideos id <;> rw [h3] at h
    · exact absurd h (by simp)
    cases h4 : r.movieProviders id <;> rw [h4] at h
    · exact absurd h (by simp)
    cases h5 : r.movieKeywords id <;> rw [h5] at h
    · exact absurd h (by simp)
    cases h6 : r.movieReleases id <;> rw [h6] at h
    · exact absurd h (by simp)
    simp [h1, h2, h3, h4, h5, h6]
  · intro id d h
    unfold TMDBService.fetchTVDetail at h
    cases h1 : r.tvCore id <;> rw [h1] at h
    · exact absurd h (by simp)
    cases h2 : r.tvCredits id <;> rw [h2] at h
    · exact absurd h (by simp)
    cases h3 : r.tvVideos id <;> rw [h3] at h
    · exact absurd h (by simp)
    cases h4 : r.tvProviders id <;> rw [h4] at h
    · exact absurd h (by simp)
    cases h5 : r.tvKeywords id <;> rw [h5] at h
    · exact absurd h (by simp)
    simp [h1, h2, h3, h4, h5]
  · rw [CatalogSyncer.processBatch_cons, hone]
    simp

/-- C6 (witness): on the remote whose movie-credits sub-endpoint fails, the
whole detail fetch for movie 550 fails. -/
theorem c6_partial_failure_witness :
    findByTmdbId 550 MediaType.movie emptyState.items = none ∧
    TMDBService.fetchDetails partialRemote MediaType.movie 550 = none ∧
    CatalogSyncer.processOneItem partialRemote 0 MediaType.movie emptyState
        ⟨550, MediaType.movie, q75⟩
      = ({ emptyState with
            fetches := emptyState.fetches + 1
            errors := emptyState.errors + 1 }, false) := by
  refine ⟨by decide, by decide, ?_⟩
  exact (c6_partial_failure_isolation [] (by decide) (by decide)).2.2.1

/-- C7 (amended): within one processing run of the FIFO queue the requests
are issued in enqueue order and consecutive issue times are at least the
configured delay apart; but the delay is only awaited while the queue is
still nonempty, so two requests served by two back-to-back runs (the queue
drains, then a new request arrives) can be issued closer together than the
delay, contrary to the global guarantee the claim states. -/
theorem c7_queue_fifo_min_gap {requestDelay : Int} (qs : List TMDBService.QueuedRequest)
    (t : Int) (hdur : ∀ q ∈ qs, 0 ≤ q.duration) :
    (TMDBService.processQueue requestDelay qs t).map Prod.fst
      = qs.map TMDBService.QueuedRequest.reqId ∧
    List.Chain' (fun a b => a.2 + requestDelay ≤ b.2)
      (TMDBService.processQueue requestDelay qs t) :=
  ⟨TMDBService.processQueue_fifo requestDelay qs t,
   TMDBService.processQueue_gaps requestDelay qs t hdur⟩

/-- C7 (counterexample): a 10ms request followed, 10ms after its run drains,
by a second request: the two outbound calls are issued at times 0 and 20,
only 20ms apart — far below the 250ms delay, which is never slept after the
last request of a run. -/
theorem c7_cross_run_gap_counterexample :
    TMDBService.twoSequentialRuns 250 10 10 10 = [(1, 0), (2, 20)] ∧
    ¬ List.Chain' (fun a b => a.2 + 250 ≤ b.2) (TMDBService.twoSequentialRuns 250 10 10 10) ∧
    (20 : Int) - 0 < 250 := by
  refine ⟨by decide, ?_, by decide⟩
  intro h
  have h2 := List.chain'_cons.1 (by
    have e : TMDBService.twoSequentialRuns 250 10 10 10 = [(1, 0), (2, 20)] := by decide
    rw [e] at h
    exact h)
  have : ((1, 0) : Nat × Int).2 + 250 ≤ ((2, 20) : Nat × Int).2 := h2.1
  omega

/-- C7 (witness): three queued requests issued in order with gaps of at
least the 250ms delay within one run. -/
theorem c7_queue_witness :
    (∀ q ∈ [(⟨1, 5⟩ : TMDBService.QueuedRequest), ⟨2, 7⟩, ⟨3, 0⟩], 0 ≤ q.duration) ∧
    (TMDBService.processQueue 250 [⟨1, 5⟩, ⟨2, 7⟩, ⟨3, 0⟩] 0).map Prod.fst
      = ([(⟨1, 5⟩ : TMDBService.QueuedRequest), ⟨2, 7⟩, ⟨3, 0⟩]).map
          TMDBService.QueuedRequest.reqId ∧
    List.Chain' (fun a b => a.2 + 250 ≤ b.2)
      (TMDBService.processQueue 250 [⟨1, 5⟩, ⟨2, 7⟩, ⟨3, 0⟩] 0) := by
  have h := @c7_queue_fifo_min_gap 250
    [(⟨1, 5⟩ : TMDBService.QueuedRequest), ⟨2, 7⟩, ⟨3, 0⟩] 0 (by decide)
  exact ⟨by decide, h.1, h.2⟩

/-- C8 (confirmed): when the key (endpoint, serialized params) misses the
cache at `t1`, a successful request stores its payload under that key and a
second identical request within the 3600-second TTL answers from the cache
with no outbound call; a failed request leaves the cache untouched, so the
next identical request goes outbound again. -/
theorem c8_cache_ttl_success_only (endpoint paramsJson data : String)
    (net2 net3 : Option String) {t1 t2 : Int} {c : TMDBService.ResponseCache}
    (hmiss : TMDBService.cacheGet c (TMDBService.cacheKeyOf endpoint paramsJson) t1 = none)
    (h12 : t1 ≤ t2) (h2 : t2 < t1 + TMDBService.cacheTTL) :
    (TMDBService.makeRequest endpoint paramsJson (some data) t1 c).outboundCalls = 1 ∧
    (TMDBService.makeRequest endpoint paramsJson (some data) t1 c).result = some data ∧
    (TMDBService.makeRequest endpoint paramsJson net2 t2
        (TMDBService.makeRequest endpoint paramsJson (some data) t1 c).cache).result
      = some data ∧
    (TMDBService.makeRequest endpoint paramsJson net2 t2
        (TMDBService.makeRequest endpoint paramsJson (some data) t1 c).cache).outboundCalls
      = 0 ∧
    (TMDBService.makeRequest endpoint paramsJson none t1 c).cache = c ∧
    (TMDBService.makeRequest endpoint paramsJson none t1 c).result = none ∧
    (TMDBService.makeRequest endpoint paramsJson net3 t2
        (TMDBService.makeRequest endpoint paramsJson none t1 c).cache).outboundCalls
      = 1 := by
  have hset : (TMDBService.makeRequest endpoint paramsJson (some data) t1 c)
      = ⟨some data, TMDBService.cacheSet c (TMDBService.cacheKeyOf endpoint paramsJson)
          data (t1 + TMDBService.cacheTTL), 1⟩ := by
    unfold TMDBService.makeRequest
    simp only [hmiss]
  have hhit : TMDBService.cacheGet
      (TMDBService.cacheSet c (TMDBService.cacheKeyOf endpoint paramsJson) data
        (t1 + TMDBService.cacheTTL))
      (TMDBService.cacheKeyOf endpoint paramsJson) t2 = some data :=
    TMDBService.cacheGet_after_set h2
  have hfail : (TMDBService.makeRequest endpoint paramsJson none t1 c)
      = ⟨none, c, 1⟩ := by
    unfold TMDBService.makeRequest
    simp only [hmiss]
  have hmiss2 : TMDBService.cacheGet c (TMDBService.cacheKeyOf endpoint paramsJson) t2
      = none := TMDBService.cacheGet_none_mono hmiss h12
  refine ⟨by rw [hset], by rw [hset], ?_, ?_, by rw [hfail], by rw [hfail], ?_⟩
  · rw [hset]
    unfold TMDBService.makeRequest
    simp only [hhit]
  · rw [hset]
    unfold TMDBService.makeRequest
    simp only [hhit]
  · rw [hfail]
    unfold TMDBService.makeRequest
    simp only [hmiss2]
    cases net3 <;> rfl

/-- C8 (witness): the cache behaviour at a concrete endpoint, empty cache
and times 0 and 1800 (half the TTL). -/
theorem c8_cache_witness :
    TMDBService.cacheGet ⟨[]⟩ (TMDBService.cacheKeyOf "/movie/550" "lang=pt-BR") 0 = none ∧
    ((0 : Int) ≤ 1800) ∧ ((1800 : Int) < 0 + TMDBService.cacheTTL) ∧
    (TMDBService.makeRequest "/movie/550" "lang=pt-BR" (some "payload") 0 ⟨[]⟩).outboundCalls
      = 1 ∧
    (TMDBService.makeRequest "/movie/550" "lang=pt-BR" none 1800
        (TMDBService.makeRequest "/movie/550" "lang=pt-BR" (some "payload") 0 ⟨[]⟩).cache).result
      = some "payload" := by
  have h := @c8_cache_ttl_success_only "/movie/550" "lang=pt-BR" "payload" none none
    0 1800 ⟨[]⟩ rfl (by decide) (by decide)
  exact ⟨rfl, by decide, by decide, h.1, h.2.2.1⟩

/-- C5 (amended): the backend `syncTrendingContent` implements full-replace
semantics on exactly the matched or created top-50 weekly-trending entries.
Soundness: every item flagged `trending = true` afterwards carries the key
of a top-50 entry (the pass first resets `trending` on all documents, so
previously-trending items outside the new set end at `false`).  Presence:
every top-50 entry whose detail fetch succeeds has its key present
afterwards (an absent one is inserted during the pass).  Completeness: over
a store with no soft-deactivated documents, every top-50 entry that is
already present or whose detail fetch succeeds ends with the document
carrying its key flagged `trending = true` — so exactly the matched or
created entries are flagged.  The scripts variant, contrary to the claim,
never inserts: it only flags existing documents matched against popular
page 1, leaving the item count unchanged. -/
theorem c5_trending_full_replace {r : Remote} {now : Int} {st : SyncState}
    (hinv : StoreInv st) (hr : RemoteOk r) (ha : TvAgree r) :
    (∀ y ∈ (CatalogSyncer.syncTrendingContent r now st).items, y.trending = true →
      ∃ x ∈ r.trendingAllWeek.take 50, y.tmdbId = x.tmdbId ∧ y.type = x.type) ∧
    (∀ x ∈ r.trendingAllWeek.take 50, ∀ d,
      TMDBService.fetchDetails r x.type x.tmdbId = some d →
      HasKeyB x.tmdbId x.type (CatalogSyncer.syncTrendingContent r now st).items) ∧
    ((∀ m ∈ st.items, m.isActive = true) →
      ∀ x ∈ r.trendingAllWeek.take 50,
        (HasKeyB x.tmdbId x.type st.items ∨
          TMDBService.fetchDetails r x.type x.tmdbId ≠ none) →
        ∃ y ∈ (CatalogSyncer.syncTrendingContent r now st).items,
          y.tmdbId = x.tmdbId ∧ y.type = x.type ∧ y.trending = true) ∧
    (ScriptsSyncer.syncTrendingContent r now st).items.length = st.items.length := by
  refine ⟨?_, ?_, ?_, scriptsTrending_len r now st⟩
  · intro y hy hyt
    unfold CatalogSyncer.syncTrendingContent at hy
    simp only [List.mem_map] at hy
    obtain ⟨z, hz, hyz⟩ := hy
    subst hyz
    split at hyt
    · rename_i hcontains
      have hmem : z.id ∈ (CatalogSyncer.collectTrending r now (r.trendingAllWeek.take 50)
          { st with items := st.items.map (fun m => { m with trending := false }) } []).2 := by
        simpa using hcontains
      rcases CatalogSyncer.collectTrending_ids_spec z.id hmem with
        hin | ⟨x, hx, m, hm, h1, h2, h3⟩
      · cases hin
      · have hids : IdsUniq
            (CatalogSyncer.collectTrending r now (r.trendingAllWeek.take 50)
              { st with items := st.items.map (fun m => { m with trending := false }) } []).1.items :=
          (CatalogSyncer.collectTrending_inv
            (storeInv_map CatalogSyncer.trendReset_keeps (fun _ => rfl) hinv)).2.1
        have hmz : m = z := eq_of_mem_of_id_eq hids hm hz h1
        subst hmz
        refine ⟨x, hx, ?_, ?_⟩
        · rw [(CatalogSyncer.trendMark_keeps now _ m).1]
          exact h2
        · rw [(CatalogSyncer.trendMark_keeps now _ m).2]
          exact h3
    · have hall : ∀ w ∈ (CatalogSyncer.collectTrending r now (r.trendingAllWeek.take 50)
          { st with items := st.items.map (fun m => { m with trending := false }) } []).1.items,
          w.trending = false := by
        apply CatalogSyncer.collectTrending_trending_false
        intro w hw
        rw [List.mem_map] at hw
        obtain ⟨v, _, rfl⟩ := hw
        rfl
      rw [hall z hz] at hyt
      cases hyt
  · intro x hx d hd
    obtain ⟨hdi, hdt, _⟩ := CatalogSyncer.trendingEntries_agree hr ha x hx d hd
    have hcov := @CatalogSyncer.syncTrendingContent_est r now st
      (CatalogSyncer.trendingEntries_agree hr ha) x hx d hd
    rw [← hdi, ← hdt]
    exact hcov.2
  · intro hact x hx hcond
    have hact1 : ∀ m ∈ (st.items.map (fun m => { m with trending := false })),
        m.isActive = true := by
      intro m hm
      rw [List.mem_map] at hm
      obtain ⟨v, hv, rfl⟩ := hm
      exact hact v hv
    have hcond1 : HasKeyB x.tmdbId x.type
        (st.items.map (fun m => { m with trending := false })) ∨
        TMDBService.fetchDetails r x.type x.tmdbId ≠ none :=
      hcond.imp (fun hk => (hasKeyB_map_iff CatalogSyncer.trendReset_keeps).2 hk) id
    obtain ⟨m, hm, hmi, hmt, hid⟩ := @CatalogSyncer.collectTrending_complete r now
      (r.trendingAllWeek.take 50)
      { st with items := st.items.map (fun m => { m with trending := false }) } []
      hact1 (fun z hz => CatalogSyncer.trendingEntries_agree hr ha z hz) x hx hcond1
    have hcont : (CatalogSyncer.collectTrending r now (r.trendingAllWeek.take 50)
        { st with items := st.items.map (fun m => { m with trending := false }) } []).2.contains
        m.id = true := by
      simpa using hid
    refine ⟨(if (CatalogSyncer.collectTrending r now (r.trendingAllWeek.take 50)
          { st with items := st.items.map (fun m => { m with trending := false }) } []).2.contains
          m.id
        then { m with trending := true, updatedAt := now } else m), ?_, ?_, ?_, ?_⟩
    · exact List.mem_map_of_mem _ hm
    · rw [(CatalogSyncer.trendMark_keeps now _ m).1]
      exact hmi
    · rw [(CatalogSyncer.trendMark_keeps now _ m).2]
      exact hmt
    · rw [if_pos hcont]

/-- C5 (counterexample): movie 550 sits on popular page 1 (the trending
source of the scripts pass) and is absent from the empty catalog, yet the
scripts `syncTrendingContent` inserts nothing. -/
theorem c5_scripts_no_insert_counterexample :
    ((sampleRemote.popularMovies 1).take 20).map Summary.tmdbId = [550] ∧
    hasKey 550 MediaType.movie emptyState.items = false ∧
    (ScriptsSyncer.syncTrendingContent sampleRemote 0 emptyState).items = [] := by
  decide

/-- C5 (witness): the trending full-replace theorem applied at the concrete
one-movie remote over the empty store; the completeness direction creates
movie 550 (listed in the weekly trending top 50, fetchable, absent from the
store) and flags it `trending = true`. -/
theorem c5_trending_witness :
    StoreInv emptyState ∧ RemoteOk sampleRemote ∧ TvAgree sampleRemote ∧
    (∀ m ∈ emptyState.items, m.isActive = true) ∧
    (⟨550, .movie, q75⟩ : Summary) ∈ sampleRemote.trendingAllWeek.take 50 ∧
    TMDBService.fetchDetails sampleRemote MediaType.movie 550 ≠ none ∧
    (∃ y ∈ (CatalogSyncer.syncTrendingContent sampleRemote 0 emptyState).items,
      y.tmdbId = 550 ∧ y.type = MediaType.movie ∧ y.trending = true) ∧
    (ScriptsSyncer.syncTrendingContent sampleRemote 0 emptyState).items.length
      = emptyState.items.length := by
  refine ⟨by decide, sampleRemote_ok, sampleRemote_tvAgree, by decide, by decide, by decide,
    ?_, (c5_trending_full_replace (by decide) sampleRemote_ok sampleRemote_tvAgree).2.2.2⟩
  exact (c5_trending_full_replace (by decide) sampleRemote_ok sampleRemote_tvAgree).2.2.1
    (by decide) ⟨550, .movie, q75⟩ (by decide) (Or.inr (by decide))
